import Mathlib

/-!
# Verification of the tier-merging core of `make-eaf.py`

This file gives a shallow embedding of the tier-merging and gloss-aggregation
logic of `src/make-eaf.py` and proves the specification claims about it.

The script manipulates ELAN annotation documents through the `pympi` library
(`Eaf` objects).  The library itself is not part of the repository, so the
document model and its primitive read/write operations are modelled from the
specification (Sections 3 and 4.1): a document holds linguistic types, named
tiers (each an ordered collection of time-aligned and of reference
annotations, keyed by annotation id), and a time-slot table mapping slot ids
to millisecond offsets.  Python dictionaries are modelled as ordered
association lists with Python's assignment semantics (update in place if the
key exists, append otherwise); time-slot ids (strings of the form `ts<n>` in
pympi) are modelled by their numeric index.

The four copy strategies (`_tier_copy`, `_ref_tier_copy`, `_tier_copy_to_ref`,
`_copy_symbolic_subdivision_tier`), the gloss aggregation and emission loops
of `main`, and the orchestration sequence of `main` are translated directly
from the source.
-/

namespace MakeEaf

/-- Association-list lookup by key (Python `d[k]`, as an `Option`). -/
def findKey {β : Type} (k : String) : List (String × β) → Option β
  | [] => none
  | (k', v) :: rest => if k = k' then some v else findKey k rest

/-- Association-list update with Python dict-assignment semantics:
if the key is present its value is replaced in place, otherwise the
pair is appended at the end (insertion order preserved). -/
def setKey {β : Type} (k : String) (v : β) : List (String × β) → List (String × β)
  | [] => [(k, v)]
  | (k', v') :: rest => if k = k' then (k, v) :: rest else (k', v') :: setKey k v rest

/-- Time-slot table lookup (Python `eaf.timeslots[ts]`, as an `Option`).
Time-slot ids are modelled as naturals (pympi's `ts<n>` strings). -/
def findSlot (k : Nat) : List (Nat × Int) → Option Int
  | [] => none
  | (k', v) :: rest => if k = k' then some v else findSlot k rest

/-- Time-slot table update (Python `eaf.timeslots[ts] = time`). -/
def setSlot (k : Nat) (v : Int) : List (Nat × Int) → List (Nat × Int)
  | [] => [(k, v)]
  | (k', v') :: rest => if k = k' then (k, v) :: rest else (k', v') :: setSlot k v rest

/-- Modelled from the spec: a `TimeAligned` annotation — two time-slot ids
and a text value (pympi stores `(start_ts, end_ts, value, svg_ref)`;
the unused `svg_ref` is omitted). -/
structure AlignedAnn where
  ts1 : Nat
  ts2 : Nat
  value : String
deriving DecidableEq

/-- Modelled from the spec: a `Reference` annotation — parent annotation id,
text value, and optional previous-annotation link (pympi stores
`(reference, value, previous, svg_ref)`; the unused `svg_ref` is omitted). -/
structure RefAnn where
  ref : String
  value : String
  prev : Option String
deriving DecidableEq

/-- The tier parameters used by the script's `override_params` dictionaries:
`LINGUISTIC_TYPE_REF` and `PARENT_REF` (`TIER_ID` always coincides with the
key under which the tier is stored and is omitted). -/
structure TierAttrs where
  lingRef : String
  parentRef : Option String
deriving DecidableEq

/-- Modelled from the spec: a tier — its time-aligned annotations, its
reference annotations (both ordered, keyed by annotation id), and its
declared parameters (pympi's `(aligned, reference, attributes, ordinal)`;
the unused ordinal is omitted). -/
structure Tier where
  aligned : List (String × AlignedAnn)
  refs : List (String × RefAnn)
  attrs : TierAttrs
deriving DecidableEq

/-- Modelled from the spec: a linguistic type — identifier, constraint kind
(`none` for independent time-alignable types), time-alignability flag. -/
structure LingType where
  id : String
  constraints : Option String
  timeAlignable : Bool
deriving DecidableEq

/-- Modelled from the spec: an annotation document — ordered linguistic
types, ordered named tiers, the time-slot table, and the id-generation
counters (pympi's `maxaid` for `a<n>` annotation ids and the analogous
counter behind `generate_ts_id`). -/
structure Doc where
  lingTypes : List LingType
  tiers : List (String × Tier)
  timeslots : List (Nat × Int)
  maxaid : Nat
  maxts : Nat
deriving DecidableEq

/-- Failure modes of the merge.  `missingTier` and `missingSlot` model
Python `KeyError`s on the tier and time-slot dictionaries, `missingParent`
models parent resolution finding no candidate, and `emptyGroup` models the
`ZeroDivisionError` raised by `int(utt_dur / num_segments)` when an
utterance has zero words. -/
inductive MergeError
  | missingTier (name : String)
  | missingSlot (ref : Nat)
  | missingParent
  | emptyGroup
deriving DecidableEq

/-- Resolve a time-slot id in a time-slot table, failing like Python's
`KeyError` on the timeslots dictionary. -/
def slotOf (ts : List (Nat × Int)) (r : Nat) : Except MergeError Int :=
  match findSlot r ts with
  | some v => .ok v
  | none => .error (.missingSlot r)

/-- Modelled from the spec: a fresh `Eaf()` object — one placeholder tier
`default` of the time-alignable type `default-lt`, an empty time-slot
table, and zeroed id counters. -/
def Doc.empty : Doc :=
  { lingTypes := [⟨"default-lt", none, true⟩]
    tiers := [("default", ⟨[], [], ⟨"default-lt", none⟩⟩)]
    timeslots := []
    maxaid := 0
    maxts := 0 }

/-- Modelled from the spec: `remove_tier` discards the named tier. -/
def Doc.removeTier (d : Doc) (name : String) : Doc :=
  { d with tiers := d.tiers.filter (fun p => p.1 ≠ name) }

/-- Modelled from the spec: `add_linguistic_type` declares a linguistic
type (used with fresh names only, so modelled as an append). -/
def Doc.addLingType (d : Doc) (lt : LingType) : Doc :=
  { d with lingTypes := d.lingTypes ++ [lt] }

/-- Fetch a tier by name (Python `eaf.tiers[name]`, as an `Option`). -/
def Doc.getTier (d : Doc) (name : String) : Option Tier :=
  findKey name d.tiers

/-- Fetch a tier by name, failing like Python's `KeyError`. -/
def Doc.getTierE (d : Doc) (name : String) : Except MergeError Tier :=
  match d.getTier name with
  | some t => .ok t
  | none => .error (.missingTier name)

/-- Replace (or create) the named tier (Python `eaf.tiers[name] = ...`). -/
def Doc.setTier (d : Doc) (name : String) (t : Tier) : Doc :=
  { d with tiers := setKey name t d.tiers }

/-- Modelled from the spec: `add_tier` creates a tier bound to a linguistic
type and an optional parent tier, with fresh empty annotation collections.
Like pympi, a referenced linguistic type that has not been declared yet is
added on the fly (never triggered by the orchestration below).  The
`PARENT_REF` entries of the script's `override_params` dictionaries are
recorded in `TierAttrs` at the call sites; the parent the tier is bound to
is the one passed explicitly, following the spec's description of the
operation. -/
def Doc.addTier (d : Doc) (name : String) (a : TierAttrs) : Doc :=
  let d' := if d.lingTypes.any (fun lt => lt.id = a.lingRef) then d
            else d.addLingType ⟨a.lingRef, none, true⟩
  d'.setTier name ⟨[], [], a⟩

/-- Modelled from the spec: `generate_annotation_id` — each write returns a
newly generated annotation identifier `a<n>` from the `maxaid` counter. -/
def Doc.genAid (d : Doc) : String × Doc :=
  ("a" ++ Nat.repr (d.maxaid + 1), { d with maxaid := d.maxaid + 1 })

/-- Modelled from the spec: `generate_ts_id` — allocate a fresh time-slot id
and record its offset in the time-slot table. -/
def Doc.genTs (d : Doc) (time : Int) : Nat × Doc :=
  (d.maxts + 1,
   { d with timeslots := setSlot (d.maxts + 1) time d.timeslots, maxts := d.maxts + 1 })

/-- Resolve a time-slot id of the document, failing like Python's
`KeyError`. -/
def Doc.slot (d : Doc) (r : Nat) : Except MergeError Int :=
  slotOf d.timeslots r

/-- Modelled from the spec: `add_annotation` appends a `TimeAligned`
annotation to a tier — two fresh time slots holding the given offsets, a
fresh annotation id, and the value. -/
def Doc.addAlignedAnn (d : Doc) (tierName : String) (start stop : Int) (value : String) :
    Except MergeError Doc := do
  let t ← d.getTierE tierName
  let (a, d1) := d.genTs start
  let (b, d2) := d1.genTs stop
  let (aid, d3) := d2.genAid
  pure (d3.setTier tierName { t with aligned := t.aligned ++ [(aid, ⟨a, b, value⟩)] })

/-- Find a time-aligned annotation by id anywhere in the document
(how a reference annotation's parent span is resolved). -/
def Doc.findAlignedAnn (d : Doc) (aid : String) : Option AlignedAnn :=
  d.tiers.findSome? (fun p => findKey aid p.2.aligned)

/-- Find, among time-aligned annotations, the first one whose resolved span
`[start, end)` contains `time`; a missing time slot fails like Python. -/
def resolveAlignedAt (d : Doc) (time : Int) :
    List (String × AlignedAnn) → Except MergeError (Option String)
  | [] => .ok none
  | (aid, a) :: rest => do
    let s ← d.slot a.ts1
    let e ← d.slot a.ts2
    if s ≤ time ∧ time < e then pure (some aid) else resolveAlignedAt d time rest

/-- Find, among reference annotations, the first one whose parent's resolved
span contains `time` (the patched pympi resolves a reference parent through
its own time-aligned ancestor). -/
def resolveRefAt (d : Doc) (time : Int) :
    List (String × RefAnn) → Except MergeError (Option String)
  | [] => .ok none
  | (aid, r) :: rest =>
    match d.findAlignedAnn r.ref with
    | none => resolveRefAt d time rest
    | some pa => do
      let s ← d.slot pa.ts1
      let e ← d.slot pa.ts2
      if s ≤ time ∧ time < e then pure (some aid) else resolveRefAt d time rest

/-- Turn an optional parent candidate into a hard requirement (the
`ValueError` raised when no annotation covers the requested time). -/
def requireParent (cand : Option String) : Except MergeError String :=
  match cand with
  | some x => .ok x
  | none => .error .missingParent

/-- Find the annotation of `t2` whose span contains `time`: among its
time-aligned annotations when it has any, otherwise among its reference
annotations through their time-aligned parents. -/
def resolveParentAt (d : Doc) (t2 : Tier) (time : Int) : Except MergeError (Option String) :=
  if t2.aligned.isEmpty then resolveRefAt d time t2.refs
  else resolveAlignedAt d time t2.aligned

/-- Modelled from the spec: `add_ref_annotation` appends a `Reference`
annotation to `idTier`, anchored to the annotation of the parent tier
`tier2` whose span contains `time` (resolved through the hierarchy when
`tier2` is itself a reference tier), with the given value and optional
previous-link; it fails when no parent candidate is found. -/
def Doc.addRefAnn (d : Doc) (idTier tier2 : String) (time : Int) (value : String)
    (prev : Option String) : Except MergeError Doc := do
  let t2 ← d.getTierE tier2
  let cand ← resolveParentAt d t2 time
  let pa ← requireParent cand
  let t ← d.getTierE idTier
  let (aid, d1) := d.genAid
  pure (d1.setTier idTier { t with refs := t.refs ++ [(aid, ⟨pa, value, prev⟩)] })

/-- Resolve one time-aligned annotation to its `(start, end, value)`
triple. -/
def Doc.resolveAnn (d : Doc) (p : String × AlignedAnn) :
    Except MergeError (Int × Int × String) := do
  let s ← d.slot p.2.ts1
  let e ← d.slot p.2.ts2
  pure (s, e, p.2.value)

/-- `get_annotation_data_for_tier`: the `(start, end, value)` triples of a
tier's time-aligned annotations, in tier order, offsets resolved. -/
def Doc.getAnnData (d : Doc) (name : String) :
    Except MergeError (List (Int × Int × String)) := do
  let t ← d.getTierE name
  t.aligned.mapM d.resolveAnn

/-- `get_ref_annotation_data_for_tier`: the `(start, end, value, parentId)`
tuples of a tier's reference annotations, in tier order, where `start`/`end`
are the resolved span of the parent annotation. -/
def Doc.getRefAnnData (d : Doc) (name : String) :
    Except MergeError (List (Int × Int × String × String)) := do
  let t ← d.getTierE name
  t.refs.mapM (fun p => do
    match d.findAlignedAnn p.2.ref with
    | none => .error .missingParent
    | some pa => do
      let s ← d.slot pa.ts1
      let e ← d.slot pa.ts2
      pure (s, e, p.2.value, p.2.ref))

/-- The shared `override_params if override_params else
source_eaf.get_parameters_for_tier(...)` line of the four copy strategies:
use the override dictionary when given, otherwise read the source tier's
parameters (failing like Python when the source tier is absent). -/
def resolveParams (source : Doc) (srcName : String) (overrideParams : Option TierAttrs) :
    Except MergeError TierAttrs :=
  match overrideParams with
  | some p => pure p
  | none => do
    let t ← source.getTierE srcName
    pure t.attrs

/-- `_tier_copy` (make-eaf.py:58–85): straight copy of a non-ref tier — add
the target tier, then re-create every `(start, end, value)` triple of the
source tier in source order.  Returns the (unmutated) source together with
the updated target. -/
def tier_copy (source target : Doc) (srcName tgtName : String)
    (overrideParams : Option TierAttrs) : Except MergeError (Doc × Doc) := do
  let params ← resolveParams source srcName overrideParams
  let target1 := target.addTier tgtName ⟨params.lingRef, none⟩
  let anns ← source.getAnnData srcName
  let target2 ← anns.foldlM
    (fun tgt ann => tgt.addAlignedAnn tgtName ann.1 ann.2.1 ann.2.2) target1
  pure (source, target2)

/-- `_ref_tier_copy` (make-eaf.py:88–113): copy a ref tier into a new ref
tier under `tgtParentName`, re-anchoring each annotation at its source start
time plus one. -/
def ref_tier_copy (source target : Doc) (srcName tgtName tgtParentName : String)
    (overrideParams : Option TierAttrs) : Except MergeError (Doc × Doc) := do
  let params ← resolveParams source srcName overrideParams
  let target1 := target.addTier tgtName ⟨params.lingRef, some tgtParentName⟩
  let anns ← source.getRefAnnData srcName
  let target2 ← anns.foldlM
    (fun tgt ann => tgt.addRefAnn tgtName tgtParentName (ann.1 + 1) ann.2.2.1 none) target1
  pure (source, target2)

/-- `_tier_copy_to_ref` (make-eaf.py:116–141): copy a non-ref tier but make
it a ref tier in the destination, anchoring each annotation at its source
start time. -/
def tier_copy_to_ref (source target : Doc) (srcName tgtName tgtParentName : String)
    (overrideParams : Option TierAttrs) : Except MergeError (Doc × Doc) := do
  let params ← resolveParams source srcName overrideParams
  let target1 := target.addTier tgtName ⟨params.lingRef, some tgtParentName⟩
  let anns ← source.getAnnData srcName
  let target2 ← anns.foldlM
    (fun tgt ann => tgt.addRefAnn tgtName tgtParentName ann.1 ann.2.2 none) target1
  pure (source, target2)

/-- One step of `_copy_symbolic_subdivision_tier`'s loop state: the previous
source parent id and the previously generated target annotation id. -/
structure SubdivState where
  doc : Doc
  prevParentId : Option String
  prevId : Option String

/-- The loop body of `_copy_symbolic_subdivision_tier` (make-eaf.py:169–178):
link the new annotation to the previously generated id when the source
parent id repeats, then remember this annotation's parent id and the id
just generated (`f"a{target_eaf.maxaid}"`). -/
def subdivStep (tgtName tgtParentName : String) (st : SubdivState)
    (ann : Int × Int × String × String) : Except MergeError SubdivState := do
  let prev := if st.prevParentId = some ann.2.2.2 then st.prevId else none
  let d ← st.doc.addRefAnn tgtName tgtParentName (ann.1 + 1) ann.2.2.1 prev
  pure ⟨d, some ann.2.2.2, some ("a" ++ Nat.repr d.maxaid)⟩

/-- `_copy_symbolic_subdivision_tier` (make-eaf.py:144–180): copy a
Symbolic_Subdivision ref tier, rebuilding the previous-annotation chain in
the target's id space — an annotation whose source parent id equals the
previous one is linked to the previously generated target id, otherwise it
starts a new group with no previous link.  (The source's
`len(annotation) >= 3` guard is always true for 4-tuples.) -/
def copy_symbolic_subdivision_tier (source target : Doc)
    (srcName tgtName tgtParentName : String) (overrideParams : Option TierAttrs) :
    Except MergeError (Doc × Doc) := do
  let params ← resolveParams source srcName overrideParams
  let target1 := target.addTier tgtName ⟨params.lingRef, some tgtParentName⟩
  let anns ← source.getRefAnnData srcName
  let st ← anns.foldlM (subdivStep tgtName tgtParentName)
    (⟨target1, none, none⟩ : SubdivState)
  pure (source, st.doc)

/-! ## Tier names used by `main` (make-eaf.py:195–205) -/

def utterance_id_source_tier : String := "A_phrase-segnum-en"

def utterance_id_target_tier : String := "utterance_id"

def utterance_source_tier : String := "DDD_Transcription-txt-qaa-fonipa-x-eib"

def utterance_target_tier : String := "utterance"

def utterance_translation_source_tier : String := "DDD_Translation-gls-en"

def utterance_translation_target_tier : String := "utterance_translation"

def word_source_tier : String := "A_word-txt-qaa-fonipa-x-eib"

def word_target_tier : String := "grammatical_words"

def morph_source_tier : String := "A_morph-txt-qaa-fonipa-x-eib"

def gloss_source_tier : String := "A_morph-gls-en"

def gloss_target_tier : String := "gloss"

/-! ## Gloss aggregation (make-eaf.py:288–327) -/

/-- The gloss values of one word (make-eaf.py:310–317): for each morph-tier
annotation whose parent is the word, in tier order, the values of the
gloss-tier annotations whose parent is that morph, in tier order. -/
def glossesOfWord (morphL glossL : List (String × RefAnn)) (wid : String) : List String :=
  (morphL.filter (fun m => m.2.ref == wid)).flatMap
    (fun m => (glossL.filter (fun g => g.2.ref == m.1)).map (fun g => g.2.value))

/-- The `(word value, composite gloss)` pairs of one utterance
(make-eaf.py:308–319): the words whose parent is the utterance, in tier
order, each paired with its morphs' glosses joined with `-`. -/
def wordGlossPairs (wordL morphL glossL : List (String × RefAnn)) (uid : String) :
    List (String × String) :=
  (wordL.filter (fun w => w.2.ref == uid)).map
    (fun w => (w.2.value, String.intercalate "-" (glossesOfWord morphL glossL w.1)))

/-- The per-utterance aggregation record (the `[utt_start, word_dur, [word,
gloss], ...]` list of make-eaf.py:325): utterance start offset, synthesized
per-word duration, and the ordered word/gloss pairs. -/
structure UttGroup where
  start : Int
  dur : Int
  pairs : List (String × String)
deriving DecidableEq

/-- Process one utterance (make-eaf.py:304–327): resolve its span from the
time-slot table, collect its word/gloss pairs, and synthesize the word
duration `int(utt_dur / num_segments)` (`Int.tdiv` is Python's
toward-zero truncation); zero words raises the division-by-zero error. -/
def processUtt (ts : List (Nat × Int)) (wordL morphL glossL : List (String × RefAnn))
    (entry : String × AlignedAnn) : Except MergeError (String × UttGroup) := do
  let s ← slotOf ts entry.2.ts1
  let e ← slotOf ts entry.2.ts2
  let pairs := wordGlossPairs wordL morphL glossL entry.1
  if pairs.length = 0 then .error .emptyGroup
  else pure (entry.1, ⟨s, Int.tdiv (e - s) pairs.length, pairs⟩)

/-- Fetch a tier's reference annotations (`eaf.tiers[name][1]`). -/
def Doc.refsOfTier (d : Doc) (name : String) : Except MergeError (List (String × RefAnn)) := do
  let t ← d.getTierE name
  pure t.refs

/-- Fetch a tier's time-aligned annotations (`eaf.tiers[name][0]`). -/
def Doc.alignedOfTier (d : Doc) (name : String) :
    Except MergeError (List (String × AlignedAnn)) := do
  let t ← d.getTierE name
  pure t.aligned

/-- The aggregation loop of `main` (make-eaf.py:288–327): walk the source
utterance-id tier and build the per-utterance records (`new_dict`). -/
def aggregate (d : Doc) : Except MergeError (List (String × UttGroup)) := do
  let wordL ← d.refsOfTier word_source_tier
  let morphL ← d.refsOfTier morph_source_tier
  let glossL ← d.refsOfTier gloss_source_tier
  let uttL ← d.alignedOfTier utterance_id_source_tier
  uttL.mapM (processUtt d.timeslots wordL morphL glossL)

/-! ## Gloss emission (make-eaf.py:329–351) -/

/-- The synthesized start of the `count`-th word of an utterance
(make-eaf.py:339: `word_start = utt_start + word_dur * count`). -/
def synthWordStart (g : UttGroup) (count : Nat) : Int :=
  g.start + g.dur * count

/-- The body of the emission matching loop (make-eaf.py:346–349): when a
word-tier annotation's value equals the word's value, generate a fresh
annotation id and append a gloss annotation anchored to that word
annotation, carrying the gloss value and no previous-link; otherwise do
nothing. -/
def emitMatchStep (wordVal glossVal : String) (d : Doc) (p : String × RefAnn) :
    Except MergeError Doc :=
  if wordVal == p.2.value then do
    let (newAid, d1) := d.genAid
    let gt ← d1.getTierE gloss_target_tier
    pure (d1.setTier gloss_target_tier
      { gt with refs := gt.refs ++ [(newAid, ⟨p.1, glossVal, none⟩)] })
  else pure d

/-- Emit the gloss annotations for one `(word value, gloss value)` pair
(make-eaf.py:346–349): scan the target word tier and run `emitMatchStep`
on every annotation. -/
def emitPair (d : Doc) (wordVal glossVal : String) : Except MergeError Doc := do
  let wt ← d.getTierE word_target_tier
  wt.refs.foldlM (emitMatchStep wordVal glossVal) d

/-- Emit one utterance's pairs (make-eaf.py:333–351), tracking the `count`
index used by the (otherwise unused) synthesized word start. -/
def emitUtt (d : Doc) (g : UttGroup) : Except MergeError Doc :=
  g.pairs.enum.foldlM
    (fun (d : Doc) p => do
      let _ws := synthWordStart g p.1
      emitPair d p.2.1 p.2.2)
    d

/-- The emission phase of `main` (make-eaf.py:329–351): add the gloss tier
under the target word tier, then emit every utterance's pairs in order. -/
def emitGlosses (d : Doc) (groups : List (String × UttGroup)) : Except MergeError Doc := do
  let d1 := d.addTier gloss_target_tier ⟨"Blank", some word_target_tier⟩
  groups.foldlM (fun d g => emitUtt d g.2) d1

/-! ## Orchestration (make-eaf.py:183–355) -/

/-- The copy phases of `main` (make-eaf.py:207–278): start from a fresh
target with the default tier removed, declare the linguistic types, and run
the four tier copies in dependency order.  Sources are threaded through so
that their (non-)mutation is part of the statement of each operation. -/
def copyPhases (eaf1 eaf2 : Doc) : Except MergeError (Doc × Doc × Doc) := do
  let eaf3 := Doc.empty.removeTier "default"
  let (eaf2a, eaf3a) ← tier_copy eaf2 eaf3 utterance_id_source_tier
    utterance_id_target_tier (some ⟨"default-lt", none⟩)
  let eaf3b := eaf3a.addLingType ⟨"Blank", some "Symbolic_Association", false⟩
  let (eaf1a, eaf3c) ← tier_copy_to_ref eaf1 eaf3b utterance_source_tier
    utterance_target_tier utterance_id_target_tier
    (some ⟨"Blank", some utterance_id_target_tier⟩)
  let (eaf1b, eaf3d) ← ref_tier_copy eaf1a eaf3c utterance_translation_source_tier
    utterance_translation_target_tier utterance_target_tier
    (some ⟨"Blank", some utterance_target_tier⟩)
  let eaf3e := eaf3d.addLingType ⟨"word", some "Symbolic_Subdivision", false⟩
  let (eaf2b, eaf3f) ← copy_symbolic_subdivision_tier eaf2a eaf3e word_source_tier
    word_target_tier utterance_id_target_tier
    (some ⟨"word", some utterance_target_tier⟩)
  pure (eaf1b, eaf2b, eaf3f)

/-- `main` (make-eaf.py:183–355) without the out-of-scope file I/O: the copy
phases, then gloss aggregation over the second source, then gloss emission
into the target.  Returns both (unmutated) sources and the finished target. -/
def mainMerge (eaf1 eaf2 : Doc) : Except MergeError (Doc × Doc × Doc) := do
  let (eaf1a, eaf2a, eaf3) ← copyPhases eaf1 eaf2
  let groups ← aggregate eaf2a
  let eaf3a ← emitGlosses eaf3 groups
  pure (eaf1a, eaf2a, eaf3a)


/-! ## Derived shapes and concrete example documents -/

/-- The structural shape of a document's tiers: name, linguistic type and
parent, in order (used to state the output tier structure of the merge). -/
def tierShape (d : Doc) : List (String × TierAttrs) :=
  d.tiers.map (fun p => (p.1, p.2.attrs))

/-- The id/previous-link sequence produced by the symbolic-subdivision copy
for a given sequence of source parent ids, starting from annotation counter
`m` and loop state `pp`/`pid` (a derived characterization of the loop of
`_copy_symbolic_subdivision_tier`, proved below to match it). -/
def subdivChain (pp pid : Option String) (m : Nat) : List String → List (String × Option String)
  | [] => []
  | p :: rest =>
    ("a" ++ Nat.repr (m + 1), if pp = some p then pid else none) ::
      subdivChain (some p) (some ("a" ++ Nat.repr (m + 1))) (m + 1) rest

/-- The gloss annotations emitted for one `(word, gloss)` pair while
scanning the target word tier with annotation counter `m` (a derived
characterization of the matching loop of make-eaf.py:346–349, proved below
to match it): one annotation per value match, anchored to the match. -/
def emitted (wordVal glossVal : String) (m : Nat) : List (String × RefAnn) → List (String × RefAnn)
  | [] => []
  | p :: rest =>
    if wordVal == p.2.value then
      ("a" ++ Nat.repr (m + 1), ⟨p.1, glossVal, none⟩) :: emitted wordVal glossVal (m + 1) rest
    else emitted wordVal glossVal m rest

/-- Example second source document (file 2), mirroring the spec's §8
scenario: one utterance spanning `[1000, 4000)` with words `w1` (one morph,
gloss `NEG`), `w2` (two morphs, glosses `go`, `PST`), `w3` (no morphs). -/
def exEaf2 : Doc :=
  { lingTypes := [⟨"default-lt", none, true⟩, ⟨"word", some "Symbolic_Subdivision", false⟩]
    tiers :=
      [ (utterance_id_source_tier,
          ⟨[("ann1", ⟨1, 2, "1"⟩)], [], ⟨"default-lt", none⟩⟩)
      , (word_source_tier,
          ⟨[], [("ann2", ⟨"ann1", "w1", none⟩), ("ann3", ⟨"ann1", "w2", none⟩),
                ("ann4", ⟨"ann1", "w3", none⟩)], ⟨"word", some utterance_id_source_tier⟩⟩)
      , (morph_source_tier,
          ⟨[], [("ann5", ⟨"ann2", "m1", none⟩), ("ann6", ⟨"ann3", "m2", none⟩),
                ("ann7", ⟨"ann3", "m3", none⟩)], ⟨"word", some word_source_tier⟩⟩)
      , (gloss_source_tier,
          ⟨[], [("ann8", ⟨"ann5", "NEG", none⟩), ("ann9", ⟨"ann6", "go", none⟩),
                ("ann10", ⟨"ann7", "PST", none⟩)], ⟨"Blank", some morph_source_tier⟩⟩) ]
    timeslots := [(1, 1000), (2, 4000)]
    maxaid := 10
    maxts := 2 }

/-- Example first source document (file 1): the transcription and its free
translation for the same utterance. -/
def exEaf1 : Doc :=
  { lingTypes := [⟨"default-lt", none, true⟩, ⟨"Blank", some "Symbolic_Association", false⟩]
    tiers :=
      [ (utterance_source_tier,
          ⟨[("b1", ⟨1, 2, "utt one"⟩)], [], ⟨"default-lt", none⟩⟩)
      , (utterance_translation_source_tier,
          ⟨[], [("b2", ⟨"b1", "translation one", none⟩)], ⟨"Blank", some utterance_source_tier⟩⟩) ]
    timeslots := [(1, 1000), (2, 4000)]
    maxaid := 2
    maxts := 2 }

/-- Variant of `exEaf2` whose utterance has zero words (the word, morph and
gloss tiers exist but are empty). -/
def exEaf2NoWords : Doc :=
  { lingTypes := [⟨"default-lt", none, true⟩, ⟨"word", some "Symbolic_Subdivision", false⟩]
    tiers :=
      [ (utterance_id_source_tier,
          ⟨[("ann1", ⟨1, 2, "1"⟩)], [], ⟨"default-lt", none⟩⟩)
      , (word_source_tier, ⟨[], [], ⟨"word", some utterance_id_source_tier⟩⟩)
      , (morph_source_tier, ⟨[], [], ⟨"word", some word_source_tier⟩⟩)
      , (gloss_source_tier, ⟨[], [], ⟨"Blank", some morph_source_tier⟩⟩) ]
    timeslots := [(1, 1000), (2, 4000)]
    maxaid := 1
    maxts := 2 }

/-- Variant of `exEaf2` whose utterance has two words with the identical
surface text `w1` (and no morphs), so that gloss-to-word value matching
finds two candidates. -/
def exEaf2Dup : Doc :=
  { lingTypes := [⟨"default-lt", none, true⟩, ⟨"word", some "Symbolic_Subdivision", false⟩]
    tiers :=
      [ (utterance_id_source_tier,
          ⟨[("ann1", ⟨1, 2, "1"⟩)], [], ⟨"default-lt", none⟩⟩)
      , (word_source_tier,
          ⟨[], [("ann2", ⟨"ann1", "w1", none⟩), ("ann3", ⟨"ann1", "w1", none⟩)],
           ⟨"word", some utterance_id_source_tier⟩⟩)
      , (morph_source_tier, ⟨[], [], ⟨"word", some word_source_tier⟩⟩)
      , (gloss_source_tier, ⟨[], [], ⟨"Blank", some morph_source_tier⟩⟩) ]
    timeslots := [(1, 1000), (2, 4000)]
    maxaid := 3
    maxts := 2 }

/-- A small target document that already holds a copied utterance-id tier,
used to exercise the symbolic-subdivision copy on its own. -/
def exTgt0 : Doc :=
  { lingTypes := [⟨"default-lt", none, true⟩, ⟨"word", some "Symbolic_Subdivision", false⟩]
    tiers := [(utterance_id_target_tier, ⟨[("x1", ⟨1, 2, "1"⟩)], [], ⟨"default-lt", none⟩⟩)]
    timeslots := [(1, 1000), (2, 4000)]
    maxaid := 1
    maxts := 2 }

/-! ## Generic lemmas about the `Except` monad and list combinators -/

theorem bind_ok_iff {α β : Type} {x : Except MergeError α} {f : α → Except MergeError β}
    {b : β} : (x >>= f) = .ok b ↔ ∃ a, x = .ok a ∧ f a = .ok b := by
  cases x <;> simp [Bind.bind, Except.bind]

theorem pure_ok {α : Type} {a b : α} :
    (pure a : Except MergeError α) = .ok b ↔ a = b := by
  simp [Pure.pure, Except.pure]

theorem mapM_ok_length {α β : Type} {f : α → Except MergeError β} :
    ∀ {l : List α} {out : List β}, l.mapM f = .ok out → out.length = l.length := by
  intro l
  induction l with
  | nil =>
    intro out h
    simp only [List.mapM_nil, pure_ok] at h
    simp [← h]
  | cons a l ih =>
    intro out h
    rw [List.mapM_cons, bind_ok_iff] at h
    obtain ⟨b, _, h⟩ := h
    rw [bind_ok_iff] at h
    obtain ⟨bs, hbs, h⟩ := h
    rw [pure_ok] at h
    simp [← h, ih hbs]

theorem mapM_ok_getElem {α β : Type} {f : α → Except MergeError β} :
    ∀ {l : List α} {out : List β} {k : Nat} {x : α}, l.mapM f = .ok out →
      l[k]? = some x → ∃ y, out[k]? = some y ∧ f x = .ok y := by
  intro l
  induction l with
  | nil => intro out k x _ hk; simp at hk
  | cons a l ih =>
    intro out k x h hk
    rw [List.mapM_cons, bind_ok_iff] at h
    obtain ⟨b, hb, h⟩ := h
    rw [bind_ok_iff] at h
    obtain ⟨bs, hbs, h⟩ := h
    rw [pure_ok] at h
    subst h
    cases k with
    | zero =>
      simp only [List.getElem?_cons_zero, Option.some.injEq] at hk
      exact ⟨b, by simp, hk ▸ hb⟩
    | succ k =>
      simp only [List.getElem?_cons_succ] at hk
      obtain ⟨y, hy, hfy⟩ := ih hbs hk
      exact ⟨y, by simpa using hy, hfy⟩

theorem mapM_error_at {α β : Type} {f : α → Except MergeError β} :
    ∀ {l : List α} {k : Nat} {x : α} {e : MergeError}, l[k]? = some x →
      (∀ j, j < k → ∀ y, l[j]? = some y → ∃ r, f y = .ok r) →
      f x = .error e → l.mapM f = .error e := by
  intro l
  induction l with
  | nil => intro k x e hk _ _; simp at hk
  | cons a l ih =>
    intro k x e hk hprev hx
    cases k with
    | zero =>
      simp only [List.getElem?_cons_zero, Option.some.injEq] at hk
      subst hk
      rw [List.mapM_cons]
      simp [Bind.bind, Except.bind, hx]
    | succ k =>
      simp only [List.getElem?_cons_succ] at hk
      obtain ⟨r, hr⟩ := hprev 0 (Nat.succ_pos k) a (by simp)
      have htail : l.mapM f = .error e := by
        refine ih hk (fun j hj y hy => ?_) hx
        exact hprev (j + 1) (by omega) y (by simpa using hy)
      rw [List.mapM_cons, hr, htail]
      simp [Bind.bind, Except.bind]

theorem foldlM_ok_induction {σ α : Type} {f : σ → α → Except MergeError σ} (P : σ → Prop) :
    ∀ {l : List α} {s s' : σ}, P s →
      (∀ t x t', x ∈ l → P t → f t x = .ok t' → P t') →
      l.foldlM f s = .ok s' → P s' := by
  intro l
  induction l with
  | nil =>
    intro s s' hs _ h
    simp only [List.foldlM_nil, pure_ok] at h
    exact h ▸ hs
  | cons a l ih =>
    intro s s' hs hstep h
    rw [List.foldlM_cons, bind_ok_iff] at h
    obtain ⟨s1, h1, h⟩ := h
    exact ih (hstep s a s1 (by simp) hs h1)
      (fun t x t' hx ht hf => hstep t x t' (by simp [hx]) ht hf) h

theorem foldlM_ok_exists {σ α : Type} {f : σ → α → Except MergeError σ} (P : σ → Prop) :
    ∀ {l : List α} {s : σ}, P s →
      (∀ t x, x ∈ l → P t → ∃ t', f t x = .ok t' ∧ P t') →
      ∃ s', l.foldlM f s = .ok s' ∧ P s' := by
  intro l
  induction l with
  | nil => intro s hs _; exact ⟨s, by simp [pure_ok], hs⟩
  | cons a l ih =>
    intro s hs hstep
    obtain ⟨s1, h1, hP1⟩ := hstep s a (by simp) hs
    obtain ⟨s', h', hP'⟩ := ih hP1 (fun t x hx ht => hstep t x (by simp [hx]) ht)
    exact ⟨s', by rw [List.foldlM_cons, bind_ok_iff]; exact ⟨s1, h1, h'⟩, hP'⟩

/-! ## Lemmas about the association-list primitives -/

theorem findKey_setKey_self {β : Type} {k : String} {v : β} :
    ∀ {l : List (String × β)}, findKey k (setKey k v l) = some v := by
  intro l
  induction l with
  | nil => simp [findKey, setKey]
  | cons p l ih =>
    by_cases h : k = p.1 <;> simp [findKey, setKey, h, ih]

theorem findKey_setKey_ne {β : Type} {k k' : String} {v : β} (h : k ≠ k') :
    ∀ {l : List (String × β)}, findKey k (setKey k' v l) = findKey k l := by
  intro l
  induction l with
  | nil => simp [findKey, setKey, h]
  | cons p l ih =>
    by_cases h' : k' = p.1
    · subst h'
      simp [findKey, setKey, h]
    · by_cases h'' : k = p.1 <;> simp [findKey, setKey, h', h'', ih]

theorem findSlot_setSlot_self {k : Nat} {v : Int} :
    ∀ {l : List (Nat × Int)}, findSlot k (setSlot k v l) = some v := by
  intro l
  induction l with
  | nil => simp [findSlot, setSlot]
  | cons p l ih =>
    by_cases h : k = p.1 <;> simp [findSlot, setSlot, h, ih]

theorem findSlot_setSlot_ne {k k' : Nat} {v : Int} (h : k ≠ k') :
    ∀ {l : List (Nat × Int)}, findSlot k (setSlot k' v l) = findSlot k l := by
  intro l
  induction l with
  | nil => simp [findSlot, setSlot, h]
  | cons p l ih =>
    by_cases h' : k' = p.1
    · subst h'
      simp [findSlot, setSlot, h]
    · by_cases h'' : k = p.1 <;> simp [findSlot, setSlot, h', h'', ih]

theorem setKey_of_findKey_none {β : Type} {k : String} {v : β} :
    ∀ {l : List (String × β)}, findKey k l = none → setKey k v l = l ++ [(k, v)] := by
  intro l
  induction l with
  | nil => intro _; simp [setKey]
  | cons p l ih =>
    intro h
    by_cases h' : k = p.1
    · simp [findKey, h'] at h
    · simp only [findKey, if_neg h'] at h
      simp [setKey, h', ih h]

theorem findKey_map {β γ : Type} (G : β → γ) {k : String} :
    ∀ {l : List (String × β)},
      findKey k (l.map (fun p => (p.1, G p.2))) = (findKey k l).map G := by
  intro l
  induction l with
  | nil => simp [findKey]
  | cons p l ih =>
    by_cases h : k = p.1 <;> simp [findKey, h, ih]

theorem map_setKey_same {β γ : Type} (G : β → γ) {k : String} {v w : β}
    (hG : G w = G v) :
    ∀ {l : List (String × β)}, findKey k l = some w →
      (setKey k v l).map (fun p => (p.1, G p.2)) = l.map (fun p => (p.1, G p.2)) := by
  intro l
  induction l with
  | nil => intro h; simp [findKey] at h
  | cons p l ih =>
    intro h
    by_cases h' : k = p.1
    · simp only [findKey, if_pos h'] at h
      obtain rfl := Option.some.inj h
      simp [setKey, h', hG]
    · simp only [findKey, if_neg h'] at h
      simp [setKey, h', ih h]

/-! ## Source documents are never mutated (C9, C10) -/

theorem tier_copy_ok_src {s t s' t' : Doc} {a b : String} {op : Option TierAttrs}
    (h : tier_copy s t a b op = .ok (s', t')) : s' = s := by
  unfold tier_copy at h
  rw [bind_ok_iff] at h
  obtain ⟨params, _, h⟩ := h
  rw [bind_ok_iff] at h
  obtain ⟨anns, _, h⟩ := h
  rw [bind_ok_iff] at h
  obtain ⟨t2, _, h⟩ := h
  rw [pure_ok] at h
  injection h with h1 h2
  exact h1.symm

theorem ref_tier_copy_ok_src {s t s' t' : Doc} {a b c : String} {op : Option TierAttrs}
    (h : ref_tier_copy s t a b c op = .ok (s', t')) : s' = s := by
  unfold ref_tier_copy at h
  rw [bind_ok_iff] at h
  obtain ⟨params, _, h⟩ := h
  rw [bind_ok_iff] at h
  obtain ⟨anns, _, h⟩ := h
  rw [bind_ok_iff] at h
  obtain ⟨t2, _, h⟩ := h
  rw [pure_ok] at h
  injection h with h1 h2
  exact h1.symm

theorem tier_copy_to_ref_ok_src {s t s' t' : Doc} {a b c : String} {op : Option TierAttrs}
    (h : tier_copy_to_ref s t a b c op = .ok (s', t')) : s' = s := by
  unfold tier_copy_to_ref at h
  rw [bind_ok_iff] at h
  obtain ⟨params, _, h⟩ := h
  rw [bind_ok_iff] at h
  obtain ⟨anns, _, h⟩ := h
  rw [bind_ok_iff] at h
  obtain ⟨t2, _, h⟩ := h
  rw [pure_ok] at h
  injection h with h1 h2
  exact h1.symm

theorem copy_symbolic_subdivision_tier_ok_src {s t s' t' : Doc} {a b c : String}
    {op : Option TierAttrs}
    (h : copy_symbolic_subdivision_tier s t a b c op = .ok (s', t')) : s' = s := by
  unfold copy_symbolic_subdivision_tier at h
  rw [bind_ok_iff] at h
  obtain ⟨params, _, h⟩ := h
  rw [bind_ok_iff] at h
  obtain ⟨anns, _, h⟩ := h
  rw [bind_ok_iff] at h
  obtain ⟨st, _, h⟩ := h
  rw [pure_ok] at h
  injection h with h1 h2
  exact h1.symm

theorem copyPhases_ok_sources {d1 d2 e1 e2 e3 : Doc}
    (h : copyPhases d1 d2 = .ok (e1, e2, e3)) : e1 = d1 ∧ e2 = d2 := by
  unfold copyPhases at h
  rw [bind_ok_iff] at h
  obtain ⟨p1, h1, h⟩ := h
  obtain ⟨e2a, e3a⟩ := p1
  rw [bind_ok_iff] at h
  obtain ⟨p2, h2, h⟩ := h
  obtain ⟨e1a, e3c⟩ := p2
  rw [bind_ok_iff] at h
  obtain ⟨p3, h3, h⟩ := h
  obtain ⟨e1b, e3d⟩ := p3
  rw [bind_ok_iff] at h
  obtain ⟨p4, h4, h⟩ := h
  obtain ⟨e2b, e3f⟩ := p4
  rw [pure_ok] at h
  injection h with ha h
  injection h with hb hc
  have q1 := tier_copy_ok_src h1
  have q2 := tier_copy_to_ref_ok_src h2
  have q3 := ref_tier_copy_ok_src h3
  have q4 := copy_symbolic_subdivision_tier_ok_src h4
  refine ⟨?_, ?_⟩
  · rw [← ha, q3, q2]
  · rw [← hb, q4, q1]

/-! ## Claim theorems: C9 (frame), C10 (determinism), C3 (gloss join) -/

/-- C9: no operation of the merge mutates either source document — a
completed merge returns both source documents exactly as given, and only
the target document accumulates changes. -/
theorem claim_C9 (d1 d2 e1 e2 e3 : Doc)
    (h : mainMerge d1 d2 = .ok (e1, e2, e3)) : e1 = d1 ∧ e2 = d2 := by
  unfold mainMerge at h
  rw [bind_ok_iff] at h
  obtain ⟨p, hp, h⟩ := h
  obtain ⟨f1, f2, f3⟩ := p
  rw [bind_ok_iff] at h
  obtain ⟨groups, hg, h⟩ := h
  rw [bind_ok_iff] at h
  obtain ⟨e3', he3, h⟩ := h
  rw [pure_ok] at h
  injection h with ha h
  injection h with hb hc
  have hs := copyPhases_ok_sources hp
  refine ⟨?_, ?_⟩
  · rw [← ha]
    exact hs.1
  · rw [← hb]
    exact hs.2

/-- Witness for C9: on the concrete example documents the merge succeeds
and hands back both sources unchanged. -/
theorem claim_C9_witness :
    (mainMerge exEaf1 exEaf2).toOption.map (fun r => (r.1, r.2.1)) =
      some (exEaf1, exEaf2) := by
  cases h : mainMerge exEaf1 exEaf2 with
  | error e =>
    have hok : (mainMerge exEaf1 exEaf2).isOk = true := by decide
    rw [h] at hok
    simp [Except.isOk, Except.toBool] at hok
  | ok r =>
    obtain ⟨e1, e2, e3⟩ := r
    have hc := claim_C9 exEaf1 exEaf2 e1 e2 e3 h
    simp [Except.toOption, hc.1, hc.2]

/-- C10: the full merge is deterministic — it is a pure function of its two
input documents, so identical inputs give identical results (tier
structure, annotation identifiers, offsets and links included). -/
theorem claim_C10 (d1 d2 d1' d2' : Doc) (h1 : d1 = d1') (h2 : d2 = d2') :
    mainMerge d1 d2 = mainMerge d1' d2' := by
  rw [h1, h2]

/-- Witness for C10 at the concrete example documents. -/
theorem claim_C10_witness : mainMerge exEaf1 exEaf2 = mainMerge exEaf1 exEaf2 :=
  claim_C10 exEaf1 exEaf2 exEaf1 exEaf2 rfl rfl

/-- C3: the `j`-th word of an utterance is paired with its morphs' gloss
values joined with `-` in source morph order, and a word with zero morphs
gets the empty gloss string. -/
theorem claim_C3 (wordL morphL glossL : List (String × RefAnn)) (uid : String)
    (j : Nat) (wid : String) (w : RefAnn)
    (hj : (wordL.filter (fun p => p.2.ref == uid))[j]? = some (wid, w)) :
    (wordGlossPairs wordL morphL glossL uid)[j]? =
      some (w.value, String.intercalate "-" (glossesOfWord morphL glossL wid)) ∧
    (morphL.filter (fun m => m.2.ref == wid) = [] →
      (wordGlossPairs wordL morphL glossL uid)[j]? = some (w.value, "")) := by
  have h1 : (wordGlossPairs wordL morphL glossL uid)[j]? =
      some (w.value, String.intercalate "-" (glossesOfWord morphL glossL wid)) := by
    unfold wordGlossPairs
    rw [List.getElem?_map, hj]
    rfl
  refine ⟨h1, fun hz => ?_⟩
  rw [h1]
  unfold glossesOfWord
  rw [hz]
  rfl

/-- Witness for C3: in the example word/morph/gloss hierarchy, the word
`w2` gets the composite gloss `go-PST` and the morphless word `w3` gets the
empty gloss. -/
theorem claim_C3_witness :
    (wordGlossPairs
        [("ann2", ⟨"ann1", "w1", none⟩), ("ann3", ⟨"ann1", "w2", none⟩),
         ("ann4", ⟨"ann1", "w3", none⟩)]
        [("ann5", ⟨"ann2", "m1", none⟩), ("ann6", ⟨"ann3", "m2", none⟩),
         ("ann7", ⟨"ann3", "m3", none⟩)]
        [("ann8", ⟨"ann5", "NEG", none⟩), ("ann9", ⟨"ann6", "go", none⟩),
         ("ann10", ⟨"ann7", "PST", none⟩)]
        "ann1")[1]? = some ("w2", "go-PST") ∧
    (wordGlossPairs
        [("ann2", ⟨"ann1", "w1", none⟩), ("ann3", ⟨"ann1", "w2", none⟩),
         ("ann4", ⟨"ann1", "w3", none⟩)]
        [("ann5", ⟨"ann2", "m1", none⟩), ("ann6", ⟨"ann3", "m2", none⟩),
         ("ann7", ⟨"ann3", "m3", none⟩)]
        [("ann8", ⟨"ann5", "NEG", none⟩), ("ann9", ⟨"ann6", "go", none⟩),
         ("ann10", ⟨"ann7", "PST", none⟩)]
        "ann1")[2]? = some ("w3", "") := by
  constructor
  · have h := claim_C3
      [("ann2", ⟨"ann1", "w1", none⟩), ("ann3", ⟨"ann1", "w2", none⟩),
       ("ann4", ⟨"ann1", "w3", none⟩)]
      [("ann5", ⟨"ann2", "m1", none⟩), ("ann6", ⟨"ann3", "m2", none⟩),
       ("ann7", ⟨"ann3", "m3", none⟩)]
      [("ann8", ⟨"ann5", "NEG", none⟩), ("ann9", ⟨"ann6", "go", none⟩),
       ("ann10", ⟨"ann7", "PST", none⟩)]
      "ann1" 1 "ann3" ⟨"ann1", "w2", none⟩ (by decide)
    rw [h.1]
    decide
  · have h := claim_C3
      [("ann2", ⟨"ann1", "w1", none⟩), ("ann3", ⟨"ann1", "w2", none⟩),
       ("ann4", ⟨"ann1", "w3", none⟩)]
      [("ann5", ⟨"ann2", "m1", none⟩), ("ann6", ⟨"ann3", "m2", none⟩),
       ("ann7", ⟨"ann3", "m3", none⟩)]
      [("ann8", ⟨"ann5", "NEG", none⟩), ("ann9", ⟨"ann6", "go", none⟩),
       ("ann10", ⟨"ann7", "PST", none⟩)]
      "ann1" 2 "ann4" ⟨"ann1", "w3", none⟩ (by decide)
    exact h.2 (by decide)

/-! ## Claim theorems: C1 (timing synthesis), C6 (empty group) -/

/-- C1: for an utterance spanning `[S, E)` with `n > 0` words, the
aggregation record carries the single word duration `⌊(E-S)/n⌋`, and the
`i`-th word's synthesized start (`word_start = utt_start + word_dur *
count`) equals `S + ⌊(E-S)/n⌋ * i`; in particular the first word's start
is `S`. -/
theorem claim_C1 (d : Doc) (groups : List (String × UttGroup))
    (wordL morphL glossL : List (String × RefAnn)) (uttL : List (String × AlignedAnn))
    (k : Nat) (uid : String) (ann : AlignedAnn) (S E : Int)
    (hagg : aggregate d = .ok groups)
    (hw : d.refsOfTier word_source_tier = .ok wordL)
    (hm : d.refsOfTier morph_source_tier = .ok morphL)
    (hgl : d.refsOfTier gloss_source_tier = .ok glossL)
    (hutt : d.alignedOfTier utterance_id_source_tier = .ok uttL)
    (hk : uttL[k]? = some (uid, ann))
    (hS : findSlot ann.ts1 d.timeslots = some S)
    (hE : findSlot ann.ts2 d.timeslots = some E)
    (hSE : S ≤ E) :
    ∃ g : UttGroup,
      groups[k]? = some (uid, g) ∧
      g.pairs = wordGlossPairs wordL morphL glossL uid ∧
      0 < g.pairs.length ∧
      g.dur = Int.fdiv (E - S) g.pairs.length ∧
      synthWordStart g 0 = S ∧
      ∀ i : Nat, synthWordStart g i = S + Int.fdiv (E - S) g.pairs.length * i := by
  unfold aggregate at hagg
  rw [bind_ok_iff] at hagg
  obtain ⟨wl, hwl, hagg⟩ := hagg
  rw [bind_ok_iff] at hagg
  obtain ⟨ml, hml, hagg⟩ := hagg
  rw [bind_ok_iff] at hagg
  obtain ⟨gl, hgl', hagg⟩ := hagg
  rw [bind_ok_iff] at hagg
  obtain ⟨ul, hul, hagg⟩ := hagg
  rw [hw] at hwl
  obtain rfl : wordL = wl := Except.ok.inj hwl
  rw [hm] at hml
  obtain rfl : morphL = ml := Except.ok.inj hml
  rw [hgl] at hgl'
  obtain rfl : glossL = gl := Except.ok.inj hgl'
  rw [hutt] at hul
  obtain rfl : uttL = ul := Except.ok.inj hul
  obtain ⟨y, hy, hfy⟩ := mapM_ok_getElem hagg hk
  unfold processUtt at hfy
  rw [bind_ok_iff] at hfy
  obtain ⟨s, hs, hfy⟩ := hfy
  rw [bind_ok_iff] at hfy
  obtain ⟨e, he, hfy⟩ := hfy
  have hsS : s = S := by
    unfold slotOf at hs
    rw [hS] at hs
    exact (Except.ok.inj hs).symm
  have heE : e = E := by
    unfold slotOf at he
    rw [hE] at he
    exact (Except.ok.inj he).symm
  rw [hsS, heE] at hfy
  by_cases hz : (wordGlossPairs wordL morphL glossL (uid, ann).1).length = 0
  · rw [if_pos hz] at hfy
    exact absurd hfy (by simp)
  · rw [if_neg hz] at hfy
    rw [pure_ok] at hfy
    subst hfy
    have hpos : 0 < (wordGlossPairs wordL morphL glossL uid).length :=
      Nat.pos_of_ne_zero hz
    have hft : Int.fdiv (E - S) ((wordGlossPairs wordL morphL glossL uid).length : Int) =
        Int.tdiv (E - S) ((wordGlossPairs wordL morphL glossL uid).length : Int) :=
      Int.fdiv_eq_tdiv (by omega) (by positivity)
    refine ⟨_, hy, rfl, hpos, ?_, ?_, ?_⟩
    · exact hft.symm
    · unfold synthWordStart
      simp
    · intro i
      unfold synthWordStart
      rw [← hft]

/-- Witness for C1: on the example document the single utterance spans
`[1000, 4000)` and has three words, so the synthesized duration is `1000`
and the three word starts are `1000`, `2000`, `3000`. -/
theorem claim_C1_witness :
    (aggregate exEaf2 = .ok
      [("ann1", ⟨1000, 1000, [("w1", "NEG"), ("w2", "go-PST"), ("w3", "")]⟩)]) ∧
    ((aggregate exEaf2).toOption.bind (fun gs => gs[0]?)).map
        (fun p => (p.2.dur, synthWordStart p.2 0, synthWordStart p.2 1, synthWordStart p.2 2)) =
      some (1000, 1000, 2000, 3000) := by
  have hagg : aggregate exEaf2 = .ok
      [("ann1", ⟨1000, 1000, [("w1", "NEG"), ("w2", "go-PST"), ("w3", "")]⟩)] := by rfl
  refine ⟨hagg, ?_⟩
  obtain ⟨g, hg, hpairs, hpos, hdur, h0, hi⟩ :=
    claim_C1 exEaf2 [("ann1", ⟨1000, 1000, [("w1", "NEG"), ("w2", "go-PST"), ("w3", "")]⟩)]
      [("ann2", ⟨"ann1", "w1", none⟩), ("ann3", ⟨"ann1", "w2", none⟩),
       ("ann4", ⟨"ann1", "w3", none⟩)]
      [("ann5", ⟨"ann2", "m1", none⟩), ("ann6", ⟨"ann3", "m2", none⟩),
       ("ann7", ⟨"ann3", "m3", none⟩)]
      [("ann8", ⟨"ann5", "NEG", none⟩), ("ann9", ⟨"ann6", "go", none⟩),
       ("ann10", ⟨"ann7", "PST", none⟩)]
      [("ann1", ⟨1, 2, "1"⟩)] 0 "ann1" ⟨1, 2, "1"⟩ 1000 4000
      hagg (by rfl) (by rfl) (by rfl) (by rfl) (by rfl)
      (by rfl) (by rfl) (by decide)
  rw [hagg]
  rfl

/-- C6: when an utterance has zero words, duration synthesis fails with the
empty-group (division-by-zero) error and the whole merge aborts with it. -/
theorem claim_C6 (d1 d2 e1 e2 e3 : Doc)
    (wordL morphL glossL : List (String × RefAnn)) (uttL : List (String × AlignedAnn))
    (k : Nat) (uid : String) (ann : AlignedAnn) (S E : Int)
    (hcp : copyPhases d1 d2 = .ok (e1, e2, e3))
    (hw : d2.refsOfTier word_source_tier = .ok wordL)
    (hm : d2.refsOfTier morph_source_tier = .ok morphL)
    (hgl : d2.refsOfTier gloss_source_tier = .ok glossL)
    (hutt : d2.alignedOfTier utterance_id_source_tier = .ok uttL)
    (hk : uttL[k]? = some (uid, ann))
    (hprev : ∀ j, j < k → ∀ y, uttL[j]? = some y →
      ∃ r, processUtt d2.timeslots wordL morphL glossL y = .ok r)
    (hS : findSlot ann.ts1 d2.timeslots = some S)
    (hE : findSlot ann.ts2 d2.timeslots = some E)
    (hzero : wordGlossPairs wordL morphL glossL uid = []) :
    aggregate d2 = .error .emptyGroup ∧ mainMerge d1 d2 = .error .emptyGroup := by
  have hone : processUtt d2.timeslots wordL morphL glossL (uid, ann) = .error .emptyGroup := by
    unfold processUtt
    have h1 : slotOf d2.timeslots ann.ts1 = .ok S := by
      unfold slotOf
      rw [hS]
    have h2 : slotOf d2.timeslots ann.ts2 = .ok E := by
      unfold slotOf
      rw [hE]
    rw [h1, h2]
    simp only [Bind.bind, Except.bind]
    rw [hzero]
    simp
  have hagg : aggregate d2 = .error .emptyGroup := by
    unfold aggregate
    rw [hw, hm, hgl, hutt]
    simp only [Bind.bind, Except.bind]
    exact mapM_error_at hk hprev hone
  refine ⟨hagg, ?_⟩
  unfold mainMerge
  rw [hcp]
  simp only [Bind.bind, Except.bind]
  have he2 : e2 = d2 := (copyPhases_ok_sources hcp).2
  rw [he2, hagg]

/-- Witness for C6: on the zero-word example the whole merge aborts with
the empty-group error. -/
theorem claim_C6_witness :
    mainMerge exEaf1 exEaf2NoWords = .error .emptyGroup := by
  cases h : copyPhases exEaf1 exEaf2NoWords with
  | error e =>
    have hok : (copyPhases exEaf1 exEaf2NoWords).isOk = true := by decide
    rw [h] at hok
    simp [Except.isOk, Except.toBool] at hok
  | ok r =>
    obtain ⟨e1, e2, e3⟩ := r
    exact (claim_C6 exEaf1 exEaf2NoWords e1 e2 e3 [] [] []
      [("ann1", ⟨1, 2, "1"⟩)] 0 "ann1" ⟨1, 2, "1"⟩ 1000 4000 h
      (by rfl) (by rfl) (by rfl) (by rfl) (by rfl)
      (fun j hj y hy => absurd hj (by omega))
      (by rfl) (by rfl) (by rfl)).2

/-! ## Claim C4: independent copy fidelity -/

theorem getTierE_of_getTier {d : Doc} {n : String} {t : Tier}
    (h : d.getTier n = some t) : d.getTierE n = .ok t := by
  unfold Doc.getTierE
  rw [h]

theorem getTier_setTier_self {d : Doc} {n : String} {t : Tier} :
    (d.setTier n t).getTier n = some t := by
  unfold Doc.getTier Doc.setTier
  exact findKey_setKey_self

theorem getTier_setTier_ne {d : Doc} {n m : String} {t : Tier} (h : n ≠ m) :
    (d.setTier m t).getTier n = d.getTier n := by
  unfold Doc.getTier Doc.setTier
  exact findKey_setKey_ne h

theorem getTier_addTier_self {d : Doc} {n : String} {a : TierAttrs} :
    (d.addTier n a).getTier n = some ⟨[], [], a⟩ := by
  unfold Doc.addTier
  split <;> exact getTier_setTier_self

theorem timeslots_addTier {d : Doc} {n : String} {a : TierAttrs} :
    (d.addTier n a).timeslots = d.timeslots ∧ (d.addTier n a).maxts = d.maxts := by
  unfold Doc.addTier Doc.addLingType Doc.setTier
  split <;> exact ⟨rfl, rfl⟩

theorem mapM_congr {α β : Type} {f g : α → Except MergeError β} :
    ∀ {l : List α}, (∀ x ∈ l, f x = g x) → l.mapM f = l.mapM g := by
  intro l
  induction l with
  | nil => intro _; rfl
  | cons a l ih =>
    intro h
    rw [List.mapM_cons, List.mapM_cons, h a (by simp), ih (fun x hx => h x (by simp [hx]))]

theorem mapM_ok_append {α β : Type} {f : α → Except MergeError β} :
    ∀ {l₁ l₂ : List α} {xs ys : List β}, l₁.mapM f = .ok xs → l₂.mapM f = .ok ys →
      (l₁ ++ l₂).mapM f = .ok (xs ++ ys) := by
  intro l₁
  induction l₁ with
  | nil =>
    intro l₂ xs ys h1 h2
    rw [List.mapM_nil, pure_ok] at h1
    simpa [← h1] using h2
  | cons a l ih =>
    intro l₂ xs ys h1 h2
    rw [List.mapM_cons, bind_ok_iff] at h1
    obtain ⟨b, hb, h1⟩ := h1
    rw [bind_ok_iff] at h1
    obtain ⟨bs, hbs, h1⟩ := h1
    rw [pure_ok] at h1
    rw [List.cons_append, List.mapM_cons, hb]
    simp only [Bind.bind, Except.bind]
    rw [ih hbs h2]
    simp [Bind.bind, Except.bind, pure_ok, ← h1]

theorem resolveAnn_eq_of_slots {d d' : Doc} {p : String × AlignedAnn}
    (h1 : findSlot p.2.ts1 d'.timeslots = findSlot p.2.ts1 d.timeslots)
    (h2 : findSlot p.2.ts2 d'.timeslots = findSlot p.2.ts2 d.timeslots) :
    d'.resolveAnn p = d.resolveAnn p := by
  unfold Doc.resolveAnn Doc.slot slotOf
  rw [h1, h2]

/-- One step of the `_tier_copy` loop: appending a `(start, end, value)`
triple to a tier whose resolved data so far is `done` succeeds and extends
the resolved data by exactly that triple. -/
theorem addAligned_step {tgtName : String} {tgt : Doc} {done : List (Int × Int × String)}
    {T : Tier} {a : Int × Int × String}
    (hT : tgt.getTier tgtName = some T)
    (hres : T.aligned.mapM tgt.resolveAnn = .ok done)
    (hbound : ∀ p ∈ T.aligned, p.2.ts1 ≤ tgt.maxts ∧ p.2.ts2 ≤ tgt.maxts) :
    ∃ tgt' T', tgt.addAlignedAnn tgtName a.1 a.2.1 a.2.2 = .ok tgt' ∧
      tgt'.getTier tgtName = some T' ∧
      T'.aligned.mapM tgt'.resolveAnn = .ok (done ++ [a]) ∧
      (∀ p ∈ T'.aligned, p.2.ts1 ≤ tgt'.maxts ∧ p.2.ts2 ≤ tgt'.maxts) := by
  have hstep : tgt.addAlignedAnn tgtName a.1 a.2.1 a.2.2 = .ok
      ({ tgt with
          timeslots := setSlot (tgt.maxts + 1 + 1) a.2.1 (setSlot (tgt.maxts + 1) a.1 tgt.timeslots)
          maxts := tgt.maxts + 1 + 1
          maxaid := tgt.maxaid + 1 }.setTier tgtName
        { T with aligned := T.aligned ++
            [("a" ++ Nat.repr (tgt.maxaid + 1),
              AlignedAnn.mk (tgt.maxts + 1) (tgt.maxts + 1 + 1) a.2.2)] }) := by
    unfold Doc.addAlignedAnn
    rw [getTierE_of_getTier hT]
    simp only [Bind.bind, Except.bind, Doc.genTs, Doc.genAid]
    rfl
  refine ⟨_, _, hstep, getTier_setTier_self, ?_, ?_⟩
  · refine @mapM_ok_append _ _ _ _ [_] _ [a] ?_ ?_
    · refine Eq.trans (@mapM_congr _ _ _ tgt.resolveAnn _ ?_) hres
      intro p hp
      refine resolveAnn_eq_of_slots ?_ ?_ <;>
        simp only [Doc.setTier] <;>
        rw [findSlot_setSlot_ne (by have := hbound p hp; omega),
            findSlot_setSlot_ne (by have := hbound p hp; omega)]
    · rw [List.mapM_cons, List.mapM_nil]
      unfold Doc.resolveAnn Doc.slot slotOf
      simp only [Doc.setTier]
      rw [findSlot_setSlot_ne (by omega), findSlot_setSlot_self]
      simp only [Bind.bind, Except.bind]
      rw [findSlot_setSlot_self]
      rfl
  · intro p hp
    simp only [Doc.setTier] at hp ⊢
    simp only [List.mem_append, List.mem_singleton] at hp
    rcases hp with hp | hp
    · have := hbound p hp
      constructor <;> · show _ ≤ tgt.maxts + 1 + 1; omega
    · subst hp
      refine ⟨?_, ?_⟩ <;> · dsimp only; omega

/-- The `_tier_copy` loop keeps the target tier's resolved data equal to
the processed prefix of the source data. -/
theorem addAligned_fold {tgtName : String} :
    ∀ (anns : List (Int × Int × String)) (tgt : Doc) (done : List (Int × Int × String))
      (T : Tier),
      tgt.getTier tgtName = some T →
      T.aligned.mapM tgt.resolveAnn = .ok done →
      (∀ p ∈ T.aligned, p.2.ts1 ≤ tgt.maxts ∧ p.2.ts2 ≤ tgt.maxts) →
      ∃ tgt' T',
        anns.foldlM (fun d x => d.addAlignedAnn tgtName x.1 x.2.1 x.2.2) tgt = .ok tgt' ∧
        tgt'.getTier tgtName = some T' ∧
        T'.aligned.mapM tgt'.resolveAnn = .ok (done ++ anns) := by
  intro anns
  induction anns with
  | nil =>
    intro tgt done T hT hres _
    exact ⟨tgt, T, by rw [List.foldlM_nil]; rfl, hT, by simpa using hres⟩
  | cons a rest ih =>
    intro tgt done T hT hres hbound
    obtain ⟨tgt1, T1, hstep, hT1, hres1, hbound1⟩ := addAligned_step hT hres hbound
    obtain ⟨tgt', T', hfold, hT', hres'⟩ := ih tgt1 (done ++ [a]) T1 hT1 hres1 hbound1
    refine ⟨tgt', T', ?_, hT', by simpa using hres'⟩
    rw [List.foldlM_cons, hstep]
    simpa [Bind.bind, Except.bind] using hfold

/-- C4: `_tier_copy` re-creates every `(start, end, value)` triple of the
source tier in the target tier with identical offsets and value, preserving
count and order, and leaves the source document untouched. -/
theorem claim_C4 (source target : Doc) (srcName tgtName : String) (op : Option TierAttrs)
    (data : List (Int × Int × String)) (src' tgt' : Doc)
    (hdata : source.getAnnData srcName = .ok data)
    (hcopy : tier_copy source target srcName tgtName op = .ok (src', tgt')) :
    src' = source ∧ tgt'.getAnnData tgtName = .ok data ∧
    ∃ T, tgt'.getTier tgtName = some T ∧ T.aligned.length = data.length := by
  unfold tier_copy at hcopy
  rw [bind_ok_iff] at hcopy
  obtain ⟨params, hparams, hcopy⟩ := hcopy
  rw [bind_ok_iff] at hcopy
  obtain ⟨anns, hanns, hcopy⟩ := hcopy
  rw [hdata] at hanns
  obtain rfl : data = anns := Except.ok.inj hanns
  rw [bind_ok_iff] at hcopy
  obtain ⟨t2, hfold, hcopy⟩ := hcopy
  rw [pure_ok] at hcopy
  injection hcopy with h1 h2
  subst h2
  obtain ⟨tgt2, T', hfold', hT', hres'⟩ :=
    addAligned_fold data (target.addTier tgtName ⟨params.lingRef, none⟩) [] ⟨[], [], _⟩
      getTier_addTier_self (by rfl) (by simp)
  rw [hfold'] at hfold
  obtain rfl : tgt2 = t2 := Except.ok.inj hfold
  refine ⟨h1.symm, ?_, T', hT', ?_⟩
  · unfold Doc.getAnnData
    rw [getTierE_of_getTier hT']
    simp only [Bind.bind, Except.bind]
    simpa using hres'
  · have := mapM_ok_length (by simpa using hres')
    omega

/-- Witness for C4: copying the utterance-id tier of the example document
into a fresh target reproduces its single `(1000, 4000, "1")` annotation. -/
theorem claim_C4_witness :
    (tier_copy exEaf2 (Doc.empty.removeTier "default") utterance_id_source_tier
        utterance_id_target_tier (some ⟨"default-lt", none⟩)).toOption.map
      (fun r => (r.1, r.2.getAnnData utterance_id_target_tier)) =
    some (exEaf2, .ok [(1000, 4000, "1")]) := by
  cases h : tier_copy exEaf2 (Doc.empty.removeTier "default") utterance_id_source_tier
      utterance_id_target_tier (some ⟨"default-lt", none⟩) with
  | error e =>
    have hok : (tier_copy exEaf2 (Doc.empty.removeTier "default") utterance_id_source_tier
        utterance_id_target_tier (some ⟨"default-lt", none⟩)).isOk = true := by decide
    rw [h] at hok
    simp [Except.isOk, Except.toBool] at hok
  | ok r =>
    obtain ⟨r1, r2⟩ := r
    have hc := claim_C4 exEaf2 (Doc.empty.removeTier "default") utterance_id_source_tier
      utterance_id_target_tier (some ⟨"default-lt", none⟩) [(1000, 4000, "1")] r1 r2
      (by rfl) h
    simp [Except.toOption, hc.1, hc.2.1]

/-! ## Claim C2: subdivision chain correctness -/

theorem maxaid_addTier {d : Doc} {n : String} {a : TierAttrs} :
    (d.addTier n a).maxaid = d.maxaid := by
  unfold Doc.addTier Doc.addLingType Doc.setTier
  split <;> rfl

theorem addRefAnn_ok_shape {d : Doc} {idTier tier2 : String} {time : Int} {v : String}
    {prev : Option String} {d' : Doc} {T : Tier}
    (hT : d.getTier idTier = some T)
    (h : d.addRefAnn idTier tier2 time v prev = .ok d') :
    ∃ pa, d' = { d with maxaid := d.maxaid + 1 }.setTier idTier
      { T with refs := T.refs ++ [("a" ++ Nat.repr (d.maxaid + 1), RefAnn.mk pa v prev)] } := by
  unfold Doc.addRefAnn at h
  rw [bind_ok_iff] at h
  obtain ⟨t2, ht2, h⟩ := h
  rw [bind_ok_iff] at h
  obtain ⟨cand, hcand, h⟩ := h
  rw [bind_ok_iff] at h
  obtain ⟨pa, hpa, h⟩ := h
  rw [bind_ok_iff] at h
  obtain ⟨t, ht, h⟩ := h
  rw [getTierE_of_getTier hT] at ht
  obtain rfl : T = t := Except.ok.inj ht
  simp only [Doc.genAid] at h
  rw [pure_ok] at h
  exact ⟨pa, h.symm⟩

/-- The subdivision loop turns the processed source parent ids into exactly
the id/previous-link sequence `subdivChain` predicts. -/
theorem subdiv_fold {tgtName tgtParentName : String} :
    ∀ (anns : List (Int × Int × String × String)) (st : SubdivState) (T : Tier)
      (st' : SubdivState),
      st.doc.getTier tgtName = some T →
      anns.foldlM (subdivStep tgtName tgtParentName) st = .ok st' →
      ∃ T', st'.doc.getTier tgtName = some T' ∧
        T'.refs.map (fun p => (p.1, p.2.prev)) =
          T.refs.map (fun p => (p.1, p.2.prev)) ++
            subdivChain st.prevParentId st.prevId st.doc.maxaid
              (anns.map (fun a => a.2.2.2)) := by
  intro anns
  induction anns with
  | nil =>
    intro st T st' hT h
    rw [List.foldlM_nil, pure_ok] at h
    subst h
    exact ⟨T, hT, by simp [subdivChain]⟩
  | cons a rest ih =>
    intro st T st' hT h
    rw [List.foldlM_cons, bind_ok_iff] at h
    obtain ⟨st1, h1, h⟩ := h
    unfold subdivStep at h1
    rw [bind_ok_iff] at h1
    obtain ⟨d, hd, h1⟩ := h1
    rw [pure_ok] at h1
    obtain ⟨pa, hshape⟩ := addRefAnn_ok_shape hT hd
    subst h1
    have hmax : d.maxaid = st.doc.maxaid + 1 := by
      rw [hshape]
      simp [Doc.setTier]
    have hT1 : d.getTier tgtName = some
        { T with refs := T.refs ++ [("a" ++ Nat.repr (st.doc.maxaid + 1),
            RefAnn.mk pa a.2.2.1 (if st.prevParentId = some a.2.2.2 then st.prevId else none))] } := by
      rw [hshape]
      exact getTier_setTier_self
    obtain ⟨T', hT', hmap⟩ := ih ⟨d, some a.2.2.2, some ("a" ++ Nat.repr d.maxaid)⟩ _ st' hT1 h
    refine ⟨T', hT', ?_⟩
    rw [hmap]
    show _ = T.refs.map (fun p => (p.1, p.2.prev)) ++ subdivChain _ _ _ (a.2.2.2 :: _)
    rw [hmax]
    simp [subdivChain]

theorem subdivChain_length :
    ∀ (ps : List String) (pp pid : Option String) (m : Nat),
      (subdivChain pp pid m ps).length = ps.length := by
  intro ps
  induction ps with
  | nil => intro pp pid m; rfl
  | cons q qs ih => intro pp pid m; simp [subdivChain, ih]

theorem subdivChain_head :
    ∀ (ps : List String) (pp pid : Option String) (m : Nat) (p0 : String),
      ps[0]? = some p0 →
      (subdivChain pp pid m ps)[0]? =
        some ("a" ++ Nat.repr (m + 1), if pp = some p0 then pid else none) := by
  intro ps pp pid m p0 h
  cases ps with
  | nil => simp at h
  | cons q qs =>
    simp only [List.getElem?_cons_zero, Option.some.injEq] at h
    subst h
    simp [subdivChain]

theorem subdivChain_succ :
    ∀ (ps : List String) (pp pid : Option String) (m : Nat) (i : Nat)
      (px pz : String) (ci cj : String × Option String),
      ps[i]? = some px → ps[i + 1]? = some pz →
      (subdivChain pp pid m ps)[i]? = some ci →
      (subdivChain pp pid m ps)[i + 1]? = some cj →
      cj.2 = if pz = px then some ci.1 else none := by
  intro ps
  induction ps with
  | nil => intro pp pid m i px pz ci cj h; simp at h
  | cons q qs ih =>
    intro pp pid m i px pz ci cj hi hj hci hcj
    cases i with
    | zero =>
      simp only [List.getElem?_cons_zero, Option.some.injEq] at hi
      subst hi
      simp only [List.getElem?_cons_succ] at hj
      simp only [subdivChain, List.getElem?_cons_zero, Option.some.injEq] at hci
      simp only [subdivChain, List.getElem?_cons_succ] at hcj
      rw [subdivChain_head qs _ _ _ pz hj] at hcj
      obtain rfl := Option.some.inj hcj
      subst hci
      by_cases hqp : pz = q
      · subst hqp
        simp
      · rw [if_neg (by simpa [Option.some.injEq, eq_comm] using hqp), if_neg hqp]
    | succ n =>
      simp only [List.getElem?_cons_succ] at hi hj
      simp only [subdivChain, List.getElem?_cons_succ] at hci hcj
      exact ih _ _ _ n px pz ci cj hi hj hci hcj

/-- C2: the symbolic-subdivision copy reproduces the source tier's
annotations one-for-one; the first annotation and each annotation whose
source parent id differs from the preceding one carry no previous-link,
each annotation whose source parent id repeats is linked to the annotation
generated in the immediately preceding step, and (when equal source parent
ids are contiguous, as subdivision groups are) every parent group has
exactly one head without a previous-link. -/
theorem claim_C2 (source target : Doc) (srcName tgtName tgtParentName : String)
    (op : Option TierAttrs) (anns : List (Int × Int × String × String))
    (src' tgt' : Doc) (T : Tier)
    (hdata : source.getRefAnnData srcName = .ok anns)
    (hcopy : copy_symbolic_subdivision_tier source target srcName tgtName tgtParentName op
      = .ok (src', tgt'))
    (hT : tgt'.getTier tgtName = some T)
    (hconv : ∀ i j k : Nat, i ≤ j → j ≤ k →
      ∀ ai aj ak : Int × Int × String × String,
      anns[i]? = some ai → anns[j]? = some aj → anns[k]? = some ak →
      ai.2.2.2 = ak.2.2.2 → aj.2.2.2 = ai.2.2.2) :
    T.refs.length = anns.length ∧
    (∀ p0 : String × RefAnn, T.refs[0]? = some p0 → p0.2.prev = none) ∧
    (∀ (i : Nat) (ai aj : Int × Int × String × String) (pw pz : String × RefAnn),
      anns[i]? = some ai → anns[i + 1]? = some aj →
      T.refs[i]? = some pw → T.refs[i + 1]? = some pz →
      pz.2.prev = (if aj.2.2.2 = ai.2.2.2 then some pw.1 else none)) ∧
    (∀ (i j : Nat) (ai aj : Int × Int × String × String) (pw pz : String × RefAnn),
      anns[i]? = some ai → anns[j]? = some aj →
      T.refs[i]? = some pw → T.refs[j]? = some pz →
      ai.2.2.2 = aj.2.2.2 → pw.2.prev = none → pz.2.prev = none → i = j) ∧
    (∀ (i : Nat) (ai : Int × Int × String × String), anns[i]? = some ai →
      ∃ (j : Nat) (aj : Int × Int × String × String) (pz : String × RefAnn),
        anns[j]? = some aj ∧ T.refs[j]? = some pz ∧
        aj.2.2.2 = ai.2.2.2 ∧ pz.2.prev = none) := by
  classical
  unfold copy_symbolic_subdivision_tier at hcopy
  rw [bind_ok_iff] at hcopy
  obtain ⟨params, hparams, hcopy⟩ := hcopy
  rw [bind_ok_iff] at hcopy
  obtain ⟨anns', hanns, hcopy⟩ := hcopy
  rw [hdata] at hanns
  obtain rfl : anns = anns' := Except.ok.inj hanns
  rw [bind_ok_iff] at hcopy
  obtain ⟨st', hfold, hcopy⟩ := hcopy
  rw [pure_ok] at hcopy
  injection hcopy with h1 h2
  subst h2
  obtain ⟨T'', hT'', hmap⟩ :=
    subdiv_fold anns ⟨target.addTier tgtName ⟨params.lingRef, some tgtParentName⟩, none, none⟩
      ⟨[], [], ⟨params.lingRef, some tgtParentName⟩⟩ st' getTier_addTier_self hfold
  rw [hT''] at hT
  have hTT : T'' = T := Option.some.inj hT
  rw [hTT] at hmap
  simp only [List.map_nil, List.nil_append] at hmap
  have hlen : T.refs.length = anns.length := by
    have hl := congrArg List.length hmap
    simp only [List.length_map] at hl
    rw [hl, subdivChain_length, List.length_map]
  have hfacts : ∀ (i : Nat) (pw : String × RefAnn), T.refs[i]? = some pw →
      (subdivChain none none
        (target.addTier tgtName ⟨params.lingRef, some tgtParentName⟩).maxaid
        (anns.map (fun a => a.2.2.2)))[i]? = some (pw.1, pw.2.prev) := by
    intro i pw hpw
    rw [← hmap, List.getElem?_map, hpw]
    rfl
  have head : ∀ p0 : String × RefAnn, T.refs[0]? = some p0 → p0.2.prev = none := by
    intro p0 h0
    have h0' := hfacts 0 p0 h0
    obtain ⟨hlt0, -⟩ := List.getElem?_eq_some.mp h0
    obtain ⟨a0, ha0⟩ : ∃ a0, anns[0]? = some a0 :=
      ⟨_, List.getElem?_eq_getElem (by omega)⟩
    have hp0 : (anns.map (fun a => a.2.2.2))[0]? = some a0.2.2.2 := by
      rw [List.getElem?_map, ha0]
      rfl
    rw [subdivChain_head _ _ _ _ _ hp0] at h0'
    have hinj := Option.some.inj h0'
    have h2 := congrArg Prod.snd hinj
    rw [if_neg (by simp)] at h2
    exact h2.symm
  have link : ∀ (i : Nat) (ai aj : Int × Int × String × String) (pw pz : String × RefAnn),
      anns[i]? = some ai → anns[i + 1]? = some aj →
      T.refs[i]? = some pw → T.refs[i + 1]? = some pz →
      pz.2.prev = (if aj.2.2.2 = ai.2.2.2 then some pw.1 else none) := by
    intro i ai aj pw pz hai haj hpw hpz
    have hci := hfacts i pw hpw
    have hcj := hfacts (i + 1) pz hpz
    have hpar_i : (anns.map (fun a => a.2.2.2))[i]? = some ai.2.2.2 := by
      rw [List.getElem?_map, hai]
      rfl
    have hpar_j : (anns.map (fun a => a.2.2.2))[i + 1]? = some aj.2.2.2 := by
      rw [List.getElem?_map, haj]
      rfl
    exact subdivChain_succ _ _ _ _ i ai.2.2.2 aj.2.2.2 (pw.1, pw.2.prev) (pz.1, pz.2.prev)
      hpar_i hpar_j hci hcj
  have uniq_aux : ∀ (i j : Nat) (ai aj : Int × Int × String × String)
      (pz : String × RefAnn), i < j → anns[i]? = some ai → anns[j]? = some aj →
      T.refs[j]? = some pz → ai.2.2.2 = aj.2.2.2 → pz.2.prev = none → False := by
    intro i j ai aj pz hij hai haj hpz hpar hnone
    obtain ⟨hjlt, -⟩ := List.getElem?_eq_some.mp haj
    obtain ⟨j', rfl⟩ : ∃ j', j = j' + 1 := ⟨j - 1, by omega⟩
    obtain ⟨aprev, haprev⟩ : ∃ x, anns[j']? = some x :=
      ⟨_, List.getElem?_eq_getElem (by omega)⟩
    obtain ⟨pprev, hpprev⟩ : ∃ x, T.refs[j']? = some x :=
      ⟨_, List.getElem?_eq_getElem (by omega)⟩
    have hl := link j' aprev aj pprev pz haprev haj hpprev hpz
    rw [hnone] at hl
    by_cases hc : aj.2.2.2 = aprev.2.2.2
    · rw [if_pos hc] at hl
      exact absurd hl.symm (by simp)
    · have := hconv i j' (j' + 1) (by omega) (by omega) ai aprev aj hai haprev haj hpar
      exact hc (by rw [this, ← hpar])
  have uniq : ∀ (i j : Nat) (ai aj : Int × Int × String × String) (pw pz : String × RefAnn),
      anns[i]? = some ai → anns[j]? = some aj →
      T.refs[i]? = some pw → T.refs[j]? = some pz →
      ai.2.2.2 = aj.2.2.2 → pw.2.prev = none → pz.2.prev = none → i = j := by
    intro i j ai aj pw pz hai haj hpw hpz hpar hni hnj
    rcases Nat.lt_trichotomy i j with hlt | heq | hgt
    · exact absurd (uniq_aux i j ai aj pz hlt hai haj hpz hpar hnj) id
    · exact heq
    · exact absurd (uniq_aux j i aj ai pw hgt haj hai hpw hpar.symm hni) id
  refine ⟨hlen, head, link, uniq, ?_⟩
  intro i ai hai
  have hP : ∃ j : Nat,
      ((anns[j]?).map (fun a : Int × Int × String × String => a.2.2.2)) = some ai.2.2.2 :=
    ⟨i, by rw [hai]; rfl⟩
  have hj0 := Nat.find_spec hP
  obtain ⟨aj, haj, hajpar⟩ := Option.map_eq_some'.mp hj0
  obtain ⟨hj0lt, -⟩ := List.getElem?_eq_some.mp haj
  obtain ⟨pz, hpz⟩ : ∃ x, T.refs[Nat.find hP]? = some x :=
    ⟨_, List.getElem?_eq_getElem (by omega)⟩
  refine ⟨Nat.find hP, aj, pz, haj, hpz, hajpar, ?_⟩
  cases hj0eq : Nat.find hP with
  | zero =>
    rw [hj0eq] at hpz
    exact head pz hpz
  | succ k =>
    have hkP : ¬ ((anns[k]?).map (fun a : Int × Int × String × String => a.2.2.2))
        = some ai.2.2.2 :=
      Nat.find_min hP (by omega)
    obtain ⟨ak, hak⟩ : ∃ x, anns[k]? = some x :=
      ⟨_, List.getElem?_eq_getElem (by omega)⟩
    obtain ⟨pk, hpk⟩ : ∃ x, T.refs[k]? = some x :=
      ⟨_, List.getElem?_eq_getElem (by omega)⟩
    rw [hj0eq] at haj hpz
    have hl := link k ak aj pk pz hak haj hpk hpz
    rw [hl, if_neg ?_]
    intro hc
    apply hkP
    rw [hak]
    show some ak.2.2.2 = some ai.2.2.2
    rw [← hc, hajpar]

/-- Witness for C2: copying the example word tier (three words under one
utterance) produces three annotations whose previous-links form the chain
`none`, `some a2`, `some a3`. -/
theorem claim_C2_witness :
    ((copy_symbolic_subdivision_tier exEaf2 exTgt0 word_source_tier word_target_tier
        utterance_id_target_tier (some ⟨"word", some utterance_target_tier⟩)).toOption.bind
      (fun r => (r.2.getTier word_target_tier).map
        (fun T => (T.refs.length, T.refs.map (fun p => p.2.prev))))) =
      some (3, [none, some "a2", some "a3"]) := by
  have hres : copy_symbolic_subdivision_tier exEaf2 exTgt0 word_source_tier word_target_tier
      utterance_id_target_tier (some ⟨"word", some utterance_target_tier⟩) =
      Except.ok (exEaf2,
        ⟨[⟨"default-lt", none, true⟩, ⟨"word", some "Symbolic_Subdivision", false⟩],
         [(utterance_id_target_tier, ⟨[("x1", ⟨1, 2, "1"⟩)], [], ⟨"default-lt", none⟩⟩),
          (word_target_tier,
            ⟨[], [("a2", ⟨"x1", "w1", none⟩), ("a3", ⟨"x1", "w2", some "a2"⟩),
                  ("a4", ⟨"x1", "w3", some "a3"⟩)], ⟨"word", some utterance_id_target_tier⟩⟩)],
         [(1, 1000), (2, 4000)], 4, 2⟩) := by rfl
  have hall : ∀ (n : Nat) (x : Int × Int × String × String),
      ([((1000 : Int), (4000 : Int), "w1", "ann1"), (1000, 4000, "w2", "ann1"),
        (1000, 4000, "w3", "ann1")])[n]? = some x → x.2.2.2 = "ann1" := by
    intro n x hx
    rcases n with _ | _ | _ | n
    all_goals simp only [List.getElem?_cons_zero, List.getElem?_cons_succ, List.getElem?_nil,
      Option.some.injEq] at hx
    all_goals first
    | rw [← hx]
    | exact absurd hx (by simp)
  have hc := claim_C2 exEaf2 exTgt0 word_source_tier word_target_tier
    utterance_id_target_tier (some ⟨"word", some utterance_target_tier⟩)
    [(1000, 4000, "w1", "ann1"), (1000, 4000, "w2", "ann1"), (1000, 4000, "w3", "ann1")]
    exEaf2
    ⟨[⟨"default-lt", none, true⟩, ⟨"word", some "Symbolic_Subdivision", false⟩],
     [(utterance_id_target_tier, ⟨[("x1", ⟨1, 2, "1"⟩)], [], ⟨"default-lt", none⟩⟩),
      (word_target_tier,
        ⟨[], [("a2", ⟨"x1", "w1", none⟩), ("a3", ⟨"x1", "w2", some "a2"⟩),
              ("a4", ⟨"x1", "w3", some "a3"⟩)], ⟨"word", some utterance_id_target_tier⟩⟩)],
     [(1, 1000), (2, 4000)], 4, 2⟩
    ⟨[], [("a2", ⟨"x1", "w1", none⟩), ("a3", ⟨"x1", "w2", some "a2"⟩),
          ("a4", ⟨"x1", "w3", some "a3"⟩)], ⟨"word", some utterance_id_target_tier⟩⟩
    (by rfl) hres (by rfl)
    (fun i j k hij hjk ai aj ak hai haj hak hik => by
      rw [hall j aj haj, hall i ai hai])
  rw [hres]
  rfl

/-! ## Claim C8: gloss emission per matching word annotation -/

theorem maxaid_setTier {d : Doc} {n : String} {t : Tier} :
    (d.setTier n t).maxaid = d.maxaid := rfl

theorem emitted_cons {wordVal glossVal : String} {m : Nat} {p : String × RefAnn}
    {rest : List (String × RefAnn)} :
    emitted wordVal glossVal m (p :: rest) =
      if wordVal == p.2.value then
        ("a" ++ Nat.repr (m + 1), RefAnn.mk p.1 glossVal none) ::
          emitted wordVal glossVal (m + 1) rest
      else emitted wordVal glossVal m rest := rfl

/-- The inner matching loop of the emission phase, over an arbitrary slice
of the target word tier: it never fails, leaves every tier other than the
gloss tier alone, and appends to the gloss tier exactly the annotations
`emitted` predicts — one per value match, anchored to the matching word
annotation, carrying the gloss value and no previous-link. -/
theorem emitPair_go {wordVal glossVal : String} :
    ∀ (l : List (String × RefAnn)) (d : Doc) (gt : Tier),
      d.getTier gloss_target_tier = some gt →
      ∃ d', l.foldlM (emitMatchStep wordVal glossVal) d = .ok d' ∧
        d'.getTier gloss_target_tier =
          some { gt with refs := gt.refs ++ emitted wordVal glossVal d.maxaid l } ∧
        d'.maxaid = d.maxaid + (l.filter (fun p => wordVal == p.2.value)).length ∧
        (∀ n, n ≠ gloss_target_tier → d'.getTier n = d.getTier n) ∧
        ((l.filter (fun p => wordVal == p.2.value)) = [] → d' = d) := by
  intro l
  induction l with
  | nil =>
    intro d gt hgt
    refine ⟨d, by rw [List.foldlM_nil]; rfl, ?_, by simp, fun _ _ => rfl, fun _ => rfl⟩
    rw [show emitted wordVal glossVal d.maxaid [] = [] from rfl]
    simpa using hgt
  | cons p rest ih =>
    intro d gt hgt
    have hfc : (p :: rest).filter (fun q => wordVal == q.2.value) =
        if wordVal == p.2.value then
          p :: rest.filter (fun q => wordVal == q.2.value)
        else rest.filter (fun q => wordVal == q.2.value) := List.filter_cons
    by_cases hv : wordVal == p.2.value
    · have hstep : emitMatchStep wordVal glossVal d p =
          .ok (({ d with maxaid := d.maxaid + 1 }).setTier gloss_target_tier
            { gt with refs := gt.refs ++
                [("a" ++ Nat.repr (d.maxaid + 1), RefAnn.mk p.1 glossVal none)] }) := by
        unfold emitMatchStep
        rw [if_pos hv]
        simp only [Doc.genAid]
        rw [getTierE_of_getTier (show Doc.getTier { d with maxaid := d.maxaid + 1 }
          gloss_target_tier = some gt from hgt)]
        rfl
      obtain ⟨d', hfold, hgt', hmax, hoth, hnil⟩ :=
        ih (({ d with maxaid := d.maxaid + 1 }).setTier gloss_target_tier
            { gt with refs := gt.refs ++
                [("a" ++ Nat.repr (d.maxaid + 1), RefAnn.mk p.1 glossVal none)] })
          { gt with refs := gt.refs ++
              [("a" ++ Nat.repr (d.maxaid + 1), RefAnn.mk p.1 glossVal none)] }
          getTier_setTier_self
      refine ⟨d', ?_, ?_, ?_, ?_, ?_⟩
      · rw [List.foldlM_cons, hstep]
        simpa [Bind.bind, Except.bind] using hfold
      · rw [hgt', emitted_cons, if_pos hv]
        simp [maxaid_setTier, List.append_assoc]
      · rw [hmax, hfc, if_pos hv]
        simp only [maxaid_setTier, List.length_cons]
        omega
      · intro n hn
        rw [hoth n hn]
        show (Doc.setTier _ gloss_target_tier _).getTier n = d.getTier n
        exact getTier_setTier_ne hn
      · intro hf
        rw [hfc, if_pos hv] at hf
        simp at hf
    · have hstep : emitMatchStep wordVal glossVal d p = .ok d := by
        unfold emitMatchStep
        rw [if_neg hv]
        rfl
      obtain ⟨d', hfold, hgt', hmax, hoth, hnil⟩ := ih d gt hgt
      refine ⟨d', ?_, ?_, ?_, hoth, ?_⟩
      · rw [List.foldlM_cons, hstep]
        simpa [Bind.bind, Except.bind] using hfold
      · rw [hgt', emitted_cons, if_neg hv]
      · rw [hmax, hfc, if_neg hv]
      · intro hf
        rw [hfc, if_neg hv] at hf
        exact hnil hf

theorem emitted_length {wordVal glossVal : String} :
    ∀ (l : List (String × RefAnn)) (m : Nat),
      (emitted wordVal glossVal m l).length =
        (l.filter (fun p => wordVal == p.2.value)).length := by
  intro l
  induction l with
  | nil => intro m; rfl
  | cons p rest ih =>
    intro m
    rw [emitted_cons, List.filter_cons]
    by_cases hv : wordVal == p.2.value
    · rw [if_pos hv, if_pos hv]
      simp [ih]
    · rw [if_neg hv, if_neg hv]
      exact ih m

/-- C8: for one synthesized `(word, gloss)` pair, the emission creates
exactly one gloss annotation per annotation of the target word tier whose
value equals the word's value — each anchored to its match with the gloss
value and no previous-link (`emitted`); zero matches create nothing and
raise no error, `k` matches create `k` annotations. -/
theorem claim_C8 (d : Doc) (wordVal glossVal : String) (wt gt : Tier)
    (hwt : d.getTier word_target_tier = some wt)
    (hgt : d.getTier gloss_target_tier = some gt) :
    ∃ d', emitPair d wordVal glossVal = .ok d' ∧
      d'.getTier gloss_target_tier =
        some { gt with refs := gt.refs ++ emitted wordVal glossVal d.maxaid wt.refs } ∧
      (emitted wordVal glossVal d.maxaid wt.refs).length =
        (wt.refs.filter (fun p => wordVal == p.2.value)).length ∧
      ((wt.refs.filter (fun p => wordVal == p.2.value)) = [] →
        emitPair d wordVal glossVal = .ok d) := by
  have hep : emitPair d wordVal glossVal =
      wt.refs.foldlM (emitMatchStep wordVal glossVal) d := by
    unfold emitPair
    rw [getTierE_of_getTier hwt]
    rfl
  obtain ⟨d', hfold, hgt', hmax, hoth, hnil⟩ := emitPair_go wt.refs d gt hgt
  refine ⟨d', ?_, hgt', emitted_length wt.refs d.maxaid, ?_⟩
  · rw [hep]
    exact hfold
  · intro hf
    rw [hep, hfold, hnil hf]

/-- Witness for C8: with two word annotations of identical value `w1`, one
pair yields two gloss annotations, anchored to each match in order. -/
theorem claim_C8_witness :
    (emitPair
        ⟨[⟨"default-lt", none, true⟩],
         [(word_target_tier,
            ⟨[], [("a1", ⟨"x", "w1", none⟩), ("a2", ⟨"x", "w1", none⟩)],
             ⟨"word", some utterance_id_target_tier⟩⟩),
          (gloss_target_tier, ⟨[], [], ⟨"Blank", some word_target_tier⟩⟩)],
         [], 2, 0⟩
        "w1" "G").toOption.bind
      (fun d' => (d'.getTier gloss_target_tier).map (fun t => t.refs)) =
    some [("a3", ⟨"a1", "G", none⟩), ("a4", ⟨"a2", "G", none⟩)] := by
  obtain ⟨d', h1, h2, h3, h4⟩ := claim_C8
    ⟨[⟨"default-lt", none, true⟩],
     [(word_target_tier,
        ⟨[], [("a1", ⟨"x", "w1", none⟩), ("a2", ⟨"x", "w1", none⟩)],
         ⟨"word", some utterance_id_target_tier⟩⟩),
      (gloss_target_tier, ⟨[], [], ⟨"Blank", some word_target_tier⟩⟩)],
     [], 2, 0⟩
    "w1" "G"
    ⟨[], [("a1", ⟨"x", "w1", none⟩), ("a2", ⟨"x", "w1", none⟩)],
     ⟨"word", some utterance_id_target_tier⟩⟩
    ⟨[], [], ⟨"Blank", some word_target_tier⟩⟩
    (by rfl) (by rfl)
  rw [h1]
  show Option.map (fun t => t.refs) (d'.getTier gloss_target_tier) =
    some [("a3", ⟨"a1", "G", none⟩), ("a4", ⟨"a2", "G", none⟩)]
  rw [h2]
  rfl

/-! ## Claim C5: behaviour on zero or multiple matching candidates -/

theorem getTier_addTier_ne {d : Doc} {n m : String} {a : TierAttrs} (h : n ≠ m) :
    (d.addTier m a).getTier n = d.getTier n := by
  unfold Doc.addTier
  split
  · exact getTier_setTier_ne h
  · show ((d.addLingType _).setTier m _).getTier n = d.getTier n
    rw [getTier_setTier_ne h]
    rfl

/-- A completed merge never raises any matching error in the emission
phase: `emitPair` is total once the target word tier exists. -/
theorem emitPair_total {d : Doc} {w g : String}
    (hw : (d.getTier word_target_tier).isSome = true)
    (hg : (d.getTier gloss_target_tier).isSome = true) :
    ∃ d', emitPair d w g = .ok d' ∧
      (d'.getTier word_target_tier).isSome = true ∧
      (d'.getTier gloss_target_tier).isSome = true := by
  obtain ⟨wt, hwt⟩ := Option.isSome_iff_exists.mp hw
  obtain ⟨gt, hgt⟩ := Option.isSome_iff_exists.mp hg
  obtain ⟨d', hfold, hgt', hmax, hoth, -⟩ := emitPair_go wt.refs d gt hgt
  refine ⟨d', ?_, ?_, ?_⟩
  · unfold emitPair
    rw [getTierE_of_getTier hwt]
    exact hfold
  · rw [hoth word_target_tier (by decide), hwt]
    rfl
  · rw [hgt']
    rfl

theorem emitUtt_total {d : Doc} {grp : UttGroup}
    (hw : (d.getTier word_target_tier).isSome = true)
    (hg : (d.getTier gloss_target_tier).isSome = true) :
    ∃ d', emitUtt d grp = .ok d' ∧
      (d'.getTier word_target_tier).isSome = true ∧
      (d'.getTier gloss_target_tier).isSome = true := by
  unfold emitUtt
  exact @foldlM_ok_exists _ _
    (fun (x : Doc) (p : Nat × String × String) => do
      let _ws := synthWordStart grp p.1
      emitPair x p.2.1 p.2.2)
    (fun x : Doc => (x.getTier word_target_tier).isSome = true ∧
      (x.getTier gloss_target_tier).isSome = true)
    _ _
    ⟨hw, hg⟩
    (fun t x _ ht => by
      obtain ⟨d', h1, h2, h3⟩ := emitPair_total ht.1 ht.2
      exact ⟨d', h1, h2, h3⟩)

/-- C5 (amended): matching a synthesized word against the target word tier
never fails, regardless of how many candidates (zero, one or several) the
value-equality scan finds — the emission phase succeeds whenever the target
word tier exists. -/
theorem claim_C5_amended (d : Doc) (groups : List (String × UttGroup))
    (hw : (d.getTier word_target_tier).isSome = true) :
    (emitGlosses d groups).isOk = true := by
  have hw1 : ((d.addTier gloss_target_tier ⟨"Blank", some word_target_tier⟩).getTier
      word_target_tier).isSome = true := by
    rw [getTier_addTier_ne (by decide)]
    exact hw
  have hg1 : ((d.addTier gloss_target_tier ⟨"Blank", some word_target_tier⟩).getTier
      gloss_target_tier).isSome = true := by
    rw [getTier_addTier_self]
    rfl
  obtain ⟨d', hfold, -⟩ := @foldlM_ok_exists _ _
    (fun (x : Doc) (g : String × UttGroup) => emitUtt x g.2)
    (fun x : Doc => (x.getTier word_target_tier).isSome = true ∧
      (x.getTier gloss_target_tier).isSome = true)
    groups
    (d.addTier gloss_target_tier ⟨"Blank", some word_target_tier⟩)
    ⟨hw1, hg1⟩
    (fun t x _ ht => by
      obtain ⟨d', h1, h2, h3⟩ := emitUtt_total ht.1 ht.2
      exact ⟨d', h1, h2, h3⟩)
  show (groups.foldlM (fun x g => emitUtt x g.2)
    (d.addTier gloss_target_tier ⟨"Blank", some word_target_tier⟩)).isOk = true
  rw [hfold]
  rfl

/-- Witness for C5 (amended): emission succeeds on a target whose word tier
contains duplicate values and whose groups include unmatched words. -/
theorem claim_C5_amended_witness :
    (emitGlosses
        ⟨[⟨"default-lt", none, true⟩, ⟨"Blank", some "Symbolic_Association", false⟩],
         [(word_target_tier,
            ⟨[], [("a1", ⟨"x", "w1", none⟩), ("a2", ⟨"x", "w1", none⟩)],
             ⟨"word", some utterance_id_target_tier⟩⟩)],
         [], 2, 0⟩
        [("u1", ⟨0, 10, [("w1", "G"), ("zzz", "H")]⟩)]).isOk = true :=
  claim_C5_amended
    ⟨[⟨"default-lt", none, true⟩, ⟨"Blank", some "Symbolic_Association", false⟩],
     [(word_target_tier,
        ⟨[], [("a1", ⟨"x", "w1", none⟩), ("a2", ⟨"x", "w1", none⟩)],
         ⟨"word", some utterance_id_target_tier⟩⟩)],
     [], 2, 0⟩
    [("u1", ⟨0, 10, [("w1", "G"), ("zzz", "H")]⟩)]
    (by rfl)

/-- Counterexample for C5 as stated: on `exEaf2Dup` the synthesized word
`w1` matches two candidates in the target word tier, yet the merge
completes without any error (and no `AmbiguousMatchError` exists in the
code). -/
theorem claim_C5_counterexample :
    (mainMerge exEaf1 exEaf2Dup).isOk = true ∧
    ((mainMerge exEaf1 exEaf2Dup).toOption.bind
      (fun r => (r.2.2.getTier word_target_tier).map
        (fun T => (T.refs.filter (fun p => p.2.value == "w1")).length))) = some 2 := by
  constructor
  · decide
  · decide

/-! ## Claim C7: output tier and linguistic-type structure -/

theorem getTier_of_getTierE {d : Doc} {n : String} {t : Tier}
    (h : d.getTierE n = .ok t) : d.getTier n = some t := by
  unfold Doc.getTierE at h
  cases hx : d.getTier n with
  | none =>
    rw [hx] at h
    exact absurd h (by simp)
  | some u =>
    rw [hx] at h
    obtain rfl := Except.ok.inj h
    rfl

theorem tierShape_setTier_same {d : Doc} {n : String} {t t' : Tier}
    (hfind : d.getTier n = some t) (hattr : t'.attrs = t.attrs) :
    tierShape (d.setTier n t') = tierShape d := by
  unfold tierShape Doc.setTier
  exact map_setKey_same (fun x : Tier => x.attrs) hattr.symm hfind

theorem tierShape_addLingType {d : Doc} {lt : LingType} :
    tierShape (d.addLingType lt) = tierShape d := rfl

theorem lingTypes_addLingType {d : Doc} {lt : LingType} :
    (d.addLingType lt).lingTypes = d.lingTypes ++ [lt] := rfl

theorem tierShape_addTier_of_fresh {d : Doc} {n : String} {a : TierAttrs}
    (h : findKey n d.tiers = none) :
    tierShape (d.addTier n a) = tierShape d ++ [(n, a)] := by
  unfold Doc.addTier
  dsimp only
  split
  · unfold tierShape Doc.setTier
    dsimp only
    rw [setKey_of_findKey_none h]
    simp [List.map_append]
  · unfold tierShape Doc.setTier Doc.addLingType
    dsimp only
    rw [setKey_of_findKey_none h]
    simp [List.map_append]

theorem lingTypes_addTier_of_present {d : Doc} {n : String} {a : TierAttrs}
    (h : (d.lingTypes.any fun lt => lt.id = a.lingRef) = true) :
    (d.addTier n a).lingTypes = d.lingTypes := by
  unfold Doc.addTier
  rw [if_pos h]
  rfl

theorem findKey_tiers_none {d : Doc} {n : String}
    (h : findKey n (tierShape d) = none) : findKey n d.tiers = none := by
  have hm := @findKey_map _ _ (fun t : Tier => t.attrs) n d.tiers
  unfold tierShape at h
  rw [h] at hm
  exact Option.map_eq_none'.mp hm.symm

theorem addAlignedAnn_shape {d : Doc} {n : String} {s e : Int} {v : String} {d' : Doc}
    (h : d.addAlignedAnn n s e v = .ok d') :
    tierShape d' = tierShape d ∧ d'.lingTypes = d.lingTypes := by
  unfold Doc.addAlignedAnn at h
  rw [bind_ok_iff] at h
  obtain ⟨t, ht, h⟩ := h
  simp only [Doc.genTs, Doc.genAid] at h
  rw [pure_ok] at h
  subst h
  have hget := getTier_of_getTierE ht
  constructor
  · exact tierShape_setTier_same hget rfl
  · rfl

theorem addRefAnn_shape {d : Doc} {i2 t2n : String} {time : Int} {v : String}
    {pr : Option String} {d' : Doc}
    (h : d.addRefAnn i2 t2n time v pr = .ok d') :
    tierShape d' = tierShape d ∧ d'.lingTypes = d.lingTypes := by
  unfold Doc.addRefAnn at h
  rw [bind_ok_iff] at h
  obtain ⟨t2, ht2, h⟩ := h
  rw [bind_ok_iff] at h
  obtain ⟨cand, hcand, h⟩ := h
  rw [bind_ok_iff] at h
  obtain ⟨pa, hpa, h⟩ := h
  rw [bind_ok_iff] at h
  obtain ⟨t, ht, h⟩ := h
  simp only [Doc.genAid] at h
  rw [pure_ok] at h
  subst h
  have hget := getTier_of_getTierE ht
  constructor
  · exact tierShape_setTier_same hget rfl
  · rfl

theorem emitMatchStep_shape {w g : String} {d : Doc} {p : String × RefAnn} {d' : Doc}
    (h : emitMatchStep w g d p = .ok d') :
    tierShape d' = tierShape d ∧ d'.lingTypes = d.lingTypes := by
  unfold emitMatchStep at h
  by_cases hv : w == p.2.value
  · rw [if_pos hv] at h
    simp only [Doc.genAid] at h
    rw [bind_ok_iff] at h
    obtain ⟨gt, hgt, h⟩ := h
    rw [pure_ok] at h
    subst h
    have hget := getTier_of_getTierE hgt
    constructor
    · exact tierShape_setTier_same hget rfl
    · rfl
  · rw [if_neg hv] at h
    rw [pure_ok] at h
    subst h
    exact ⟨rfl, rfl⟩

theorem foldlM_shape {α : Type} {f : Doc → α → Except MergeError Doc}
    (hf : ∀ t x t', f t x = .ok t' →
      tierShape t' = tierShape t ∧ t'.lingTypes = t.lingTypes) :
    ∀ {l : List α} {s s' : Doc}, l.foldlM f s = .ok s' →
      tierShape s' = tierShape s ∧ s'.lingTypes = s.lingTypes := by
  intro l s s' h
  exact foldlM_ok_induction
    (fun x : Doc => tierShape x = tierShape s ∧ x.lingTypes = s.lingTypes)
    ⟨rfl, rfl⟩
    (fun t x t' _ ht hstep => by
      obtain ⟨h1, h2⟩ := hf t x t' hstep
      exact ⟨h1.trans ht.1, h2.trans ht.2⟩) h

theorem tier_copy_shape {s t s' t' : Doc} {a b : String} {P : TierAttrs}
    (h : tier_copy s t a b (some P) = .ok (s', t')) :
    tierShape t' = tierShape (t.addTier b ⟨P.lingRef, none⟩) ∧
    t'.lingTypes = (t.addTier b ⟨P.lingRef, none⟩).lingTypes := by
  unfold tier_copy at h
  rw [bind_ok_iff] at h
  obtain ⟨params, hparams, h⟩ := h
  have hpeq : P = params := pure_ok.mp hparams
  subst hpeq
  rw [bind_ok_iff] at h
  obtain ⟨anns, hanns, h⟩ := h
  rw [bind_ok_iff] at h
  obtain ⟨t2, hfold, h⟩ := h
  rw [pure_ok] at h
  injection h with h1 h2
  subst h2
  exact foldlM_shape (fun tt x tt' hx => addAlignedAnn_shape hx) hfold

theorem tier_copy_to_ref_shape {s t s' t' : Doc} {a b c : String} {P : TierAttrs}
    (h : tier_copy_to_ref s t a b c (some P) = .ok (s', t')) :
    tierShape t' = tierShape (t.addTier b ⟨P.lingRef, some c⟩) ∧
    t'.lingTypes = (t.addTier b ⟨P.lingRef, some c⟩).lingTypes := by
  unfold tier_copy_to_ref at h
  rw [bind_ok_iff] at h
  obtain ⟨params, hparams, h⟩ := h
  have hpeq : P = params := pure_ok.mp hparams
  subst hpeq
  rw [bind_ok_iff] at h
  obtain ⟨anns, hanns, h⟩ := h
  rw [bind_ok_iff] at h
  obtain ⟨t2, hfold, h⟩ := h
  rw [pure_ok] at h
  injection h with h1 h2
  subst h2
  exact foldlM_shape (fun tt x tt' hx => addRefAnn_shape hx) hfold

theorem ref_tier_copy_shape {s t s' t' : Doc} {a b c : String} {P : TierAttrs}
    (h : ref_tier_copy s t a b c (some P) = .ok (s', t')) :
    tierShape t' = tierShape (t.addTier b ⟨P.lingRef, some c⟩) ∧
    t'.lingTypes = (t.addTier b ⟨P.lingRef, some c⟩).lingTypes := by
  unfold ref_tier_copy at h
  rw [bind_ok_iff] at h
  obtain ⟨params, hparams, h⟩ := h
  have hpeq : P = params := pure_ok.mp hparams
  subst hpeq
  rw [bind_ok_iff] at h
  obtain ⟨anns, hanns, h⟩ := h
  rw [bind_ok_iff] at h
  obtain ⟨t2, hfold, h⟩ := h
  rw [pure_ok] at h
  injection h with h1 h2
  subst h2
  exact foldlM_shape (fun tt x tt' hx => addRefAnn_shape hx) hfold

theorem copy_symbolic_subdivision_tier_shape {s t s' t' : Doc} {a b c : String}
    {P : TierAttrs}
    (h : copy_symbolic_subdivision_tier s t a b c (some P) = .ok (s', t')) :
    tierShape t' = tierShape (t.addTier b ⟨P.lingRef, some c⟩) ∧
    t'.lingTypes = (t.addTier b ⟨P.lingRef, some c⟩).lingTypes := by
  unfold copy_symbolic_subdivision_tier at h
  rw [bind_ok_iff] at h
  obtain ⟨params, hparams, h⟩ := h
  have hpeq : P = params := pure_ok.mp hparams
  subst hpeq
  rw [bind_ok_iff] at h
  obtain ⟨anns, hanns, h⟩ := h
  rw [bind_ok_iff] at h
  obtain ⟨st', hfold, h⟩ := h
  rw [pure_ok] at h
  injection h with h1 h2
  subst h2
  exact foldlM_ok_induction
    (fun st : SubdivState =>
      tierShape st.doc = tierShape (t.addTier b ⟨P.lingRef, some c⟩) ∧
      st.doc.lingTypes = (t.addTier b ⟨P.lingRef, some c⟩).lingTypes)
    ⟨rfl, rfl⟩
    (fun st x st'' _ hst hstep => by
      unfold subdivStep at hstep
      rw [bind_ok_iff] at hstep
      obtain ⟨dd, hdd, hstep⟩ := hstep
      rw [pure_ok] at hstep
      subst hstep
      obtain ⟨h1, h2⟩ := addRefAnn_shape hdd
      exact ⟨h1.trans hst.1, h2.trans hst.2⟩) hfold

theorem emitPair_shape {d : Doc} {w g : String} {d' : Doc}
    (h : emitPair d w g = .ok d') :
    tierShape d' = tierShape d ∧ d'.lingTypes = d.lingTypes := by
  unfold emitPair at h
  rw [bind_ok_iff] at h
  obtain ⟨wt, hwt, h⟩ := h
  exact foldlM_shape (fun tt x tt' hx => emitMatchStep_shape hx) h

theorem emitUtt_shape {d : Doc} {grp : UttGroup} {d' : Doc}
    (h : emitUtt d grp = .ok d') :
    tierShape d' = tierShape d ∧ d'.lingTypes = d.lingTypes := by
  unfold emitUtt at h
  exact foldlM_shape (fun tt x tt' hx => emitPair_shape hx) h

theorem emitGlosses_shape {d : Doc} {groups : List (String × UttGroup)} {d' : Doc}
    (h : emitGlosses d groups = .ok d') :
    tierShape d' =
      tierShape (d.addTier gloss_target_tier ⟨"Blank", some word_target_tier⟩) ∧
    d'.lingTypes =
      (d.addTier gloss_target_tier ⟨"Blank", some word_target_tier⟩).lingTypes := by
  unfold emitGlosses at h
  exact foldlM_shape (fun tt x tt' hx => emitUtt_shape hx) h


/-- C7: a completed merge produces a target holding exactly the tiers
`utterance_id` (independent), `utterance` (parent `utterance_id`),
`utterance_translation` (parent `utterance`), `grammatical_words`
(type `word`, parent `utterance_id`) and `gloss` (parent
`grammatical_words`), with the linguistic types `default-lt` (time
alignable, no constraint), `Blank` (Symbolic_Association) and `word`
(Symbolic_Subdivision). -/
theorem claim_C7 (d1 d2 r1 r2 r3 : Doc)
    (h : mainMerge d1 d2 = .ok (r1, r2, r3)) :
    tierShape r3 =
      [(utterance_id_target_tier, ⟨"default-lt", none⟩),
       (utterance_target_tier, ⟨"Blank", some utterance_id_target_tier⟩),
       (utterance_translation_target_tier, ⟨"Blank", some utterance_target_tier⟩),
       (word_target_tier, ⟨"word", some utterance_id_target_tier⟩),
       (gloss_target_tier, ⟨"Blank", some word_target_tier⟩)] ∧
    r3.lingTypes =
      [⟨"default-lt", none, true⟩,
       ⟨"Blank", some "Symbolic_Association", false⟩,
       ⟨"word", some "Symbolic_Subdivision", false⟩] := by
  unfold mainMerge at h
  rw [bind_ok_iff] at h
  obtain ⟨p, hp, h⟩ := h
  obtain ⟨e1, e2, e3⟩ := p
  rw [bind_ok_iff] at h
  obtain ⟨groups, hgroups, h⟩ := h
  rw [bind_ok_iff] at h
  obtain ⟨e3', hemit, h⟩ := h
  rw [pure_ok] at h
  injection h with ha h
  injection h with hb hc
  subst hc
  unfold copyPhases at hp
  rw [bind_ok_iff] at hp
  obtain ⟨q1, h1, hp⟩ := hp
  obtain ⟨e2a, e3a⟩ := q1
  rw [bind_ok_iff] at hp
  obtain ⟨q2, h2, hp⟩ := hp
  obtain ⟨e1a, e3c⟩ := q2
  rw [bind_ok_iff] at hp
  obtain ⟨q3, h3, hp⟩ := hp
  obtain ⟨e1b, e3d⟩ := q3
  rw [bind_ok_iff] at hp
  obtain ⟨q4, h4, hp⟩ := hp
  obtain ⟨e2b, e3f⟩ := q4
  rw [pure_ok] at hp
  injection hp with hx hp
  injection hp with hy hz
  subst hz
  have s1 := tier_copy_shape h1
  have sh1 : tierShape e3a = [(utterance_id_target_tier, ⟨"default-lt", none⟩)] := by
    rw [s1.1, tierShape_addTier_of_fresh (by rfl)]
    rfl
  have ty1 : e3a.lingTypes = [⟨"default-lt", none, true⟩] := by
    rw [s1.2, lingTypes_addTier_of_present (by rfl)]
    rfl
  have fresh2 : findKey utterance_target_tier
      (e3a.addLingType ⟨"Blank", some "Symbolic_Association", false⟩).tiers = none := by
    apply findKey_tiers_none
    rw [tierShape_addLingType, sh1]
    rfl
  have pres2 : (((e3a.addLingType
      ⟨"Blank", some "Symbolic_Association", false⟩).lingTypes).any
      fun lt => lt.id = "Blank") = true := by
    rw [lingTypes_addLingType, ty1]
    rfl
  have s2 := tier_copy_to_ref_shape h2
  have sh2 : tierShape e3c =
      [(utterance_id_target_tier, ⟨"default-lt", none⟩),
       (utterance_target_tier, ⟨"Blank", some utterance_id_target_tier⟩)] := by
    rw [s2.1, tierShape_addTier_of_fresh fresh2, tierShape_addLingType, sh1]
    rfl
  have ty2 : e3c.lingTypes =
      [⟨"default-lt", none, true⟩, ⟨"Blank", some "Symbolic_Association", false⟩] := by
    rw [s2.2, lingTypes_addTier_of_present pres2, lingTypes_addLingType, ty1]
    rfl
  have fresh3 : findKey utterance_translation_target_tier e3c.tiers = none := by
    apply findKey_tiers_none
    rw [sh2]
    rfl
  have pres3 : ((e3c.lingTypes).any fun lt => lt.id = "Blank") = true := by
    rw [ty2]
    rfl
  have s3 := ref_tier_copy_shape h3
  have sh3 : tierShape e3d =
      [(utterance_id_target_tier, ⟨"default-lt", none⟩),
       (utterance_target_tier, ⟨"Blank", some utterance_id_target_tier⟩),
       (utterance_translation_target_tier, ⟨"Blank", some utterance_target_tier⟩)] := by
    rw [s3.1, tierShape_addTier_of_fresh fresh3, sh2]
    rfl
  have ty3 : e3d.lingTypes =
      [⟨"default-lt", none, true⟩, ⟨"Blank", some "Symbolic_Association", false⟩] := by
    rw [s3.2, lingTypes_addTier_of_present pres3, ty2]
  have fresh4 : findKey word_target_tier
      (e3d.addLingType ⟨"word", some "Symbolic_Subdivision", false⟩).tiers = none := by
    apply findKey_tiers_none
    rw [tierShape_addLingType, sh3]
    rfl
  have pres4 : (((e3d.addLingType
      ⟨"word", some "Symbolic_Subdivision", false⟩).lingTypes).any
      fun lt => lt.id = "word") = true := by
    rw [lingTypes_addLingType, ty3]
    rfl
  have s4 := copy_symbolic_subdivision_tier_shape h4
  have sh4 : tierShape e3f =
      [(utterance_id_target_tier, ⟨"default-lt", none⟩),
       (utterance_target_tier, ⟨"Blank", some utterance_id_target_tier⟩),
       (utterance_translation_target_tier, ⟨"Blank", some utterance_target_tier⟩),
       (word_target_tier, ⟨"word", some utterance_id_target_tier⟩)] := by
    rw [s4.1, tierShape_addTier_of_fresh fresh4, tierShape_addLingType, sh3]
    rfl
  have ty4 : e3f.lingTypes =
      [⟨"default-lt", none, true⟩, ⟨"Blank", some "Symbolic_Association", false⟩,
       ⟨"word", some "Symbolic_Subdivision", false⟩] := by
    rw [s4.2, lingTypes_addTier_of_present pres4, lingTypes_addLingType, ty3]
    rfl
  have fresh5 : findKey gloss_target_tier e3f.tiers = none := by
    apply findKey_tiers_none
    rw [sh4]
    rfl
  have pres5 : ((e3f.lingTypes).any fun lt => lt.id = "Blank") = true := by
    rw [ty4]
    rfl
  have s5 := emitGlosses_shape hemit
  constructor
  · rw [s5.1, tierShape_addTier_of_fresh fresh5, sh4]
    rfl
  · rw [s5.2, lingTypes_addTier_of_present pres5, ty4]

/-- Witness for C7: on the concrete example merge the target has exactly
the five expected tiers and three linguistic types. -/
theorem claim_C7_witness :
    ((mainMerge exEaf1 exEaf2).toOption.map (fun r => (tierShape r.2.2, r.2.2.lingTypes))) =
      some ([(utterance_id_target_tier, ⟨"default-lt", none⟩),
        (utterance_target_tier, ⟨"Blank", some utterance_id_target_tier⟩),
        (utterance_translation_target_tier, ⟨"Blank", some utterance_target_tier⟩),
        (word_target_tier, ⟨"word", some utterance_id_target_tier⟩),
        (gloss_target_tier, ⟨"Blank", some word_target_tier⟩)],
       [⟨"default-lt", none, true⟩, ⟨"Blank", some "Symbolic_Association", false⟩,
        ⟨"word", some "Symbolic_Subdivision", false⟩]) := by
  cases h : mainMerge exEaf1 exEaf2 with
  | error e =>
    have hok : (mainMerge exEaf1 exEaf2).isOk = true := by decide
    rw [h] at hok
    simp [Except.isOk, Except.toBool] at hok
  | ok r =>
    obtain ⟨r1, r2, r3⟩ := r
    have hc := claim_C7 exEaf1 exEaf2 r1 r2 r3 h
    simp [Except.toOption, hc.1, hc.2]

end MakeEaf
